import Mathlib

/-!
Verification of the aiapi_tool registration/mail pipeline.

Part 1 embeds `src/duckmail_client.py`: the link-extraction helpers
(`LinkExtractor`), the message-list parsing and sorting of
`DuckMailClient.list_messages`, the verification-email predicate
`DuckMailClient.is_verification_email`, and the polling loop
`MailPoller.wait_for_verification_email`.

Strings are modelled as Lean `String`s (lists of characters).  The Python
standard-library calls that the source uses are embedded as follows:

* `str.lower()` — ASCII lowering (`lowerS`).  Every keyword and URL pattern
  the source compares against is ASCII, so this agrees with Python on all
  inputs exercised here.
* `urllib.parse.unquote` — single-pass percent-decoding (`pyUnquote`).
  A `%` followed by two hex digits becomes the character with that code
  (bytes ≥ 128 become U+FFFD, as CPython does for a lone non-ASCII byte);
  malformed escapes are kept verbatim, as CPython does.
* `urllib.parse.parse_qs` — `parseQs`: split the query on `&`, drop empty
  fields, fields without `=` and fields whose raw value is empty
  (CPython with `keep_blank_values=False`), then decode name and value
  with `unquote_plus` (`+` to space, then percent-decoding).
* `urllib.parse.urlparse(url).query` — `queryOfUrl`: the text after the
  first `?`, with any `#fragment` stripped first.
* `re.findall(r'href=["\x27]([^"\x27]+)["\x27]', html, re.IGNORECASE)` —
  `extract_hrefs_from_html`, a left-to-right scan producing the same
  non-overlapping matches (opening and closing quote may differ, exactly
  as in the character classes of the regex).
* `re.findall(r'https?://[^\s<>"\x27]+', text)` — `extract_urls_from_text`.
* `re.search(pattern, subject, re.IGNORECASE)` — every configured pattern in
  `DEFAULT_SUBJECT_PATTERNS` is a literal string, so the search is embedded
  as case-insensitive substring containment.
-/

set_option maxRecDepth 4000

namespace DuckMail

/-- ASCII single-character lowering, the fragment of `str.lower()` used by
the source (all compared keywords are ASCII). -/
def asciiLowerChar (c : Char) : Char :=
  if 'A' ≤ c ∧ c ≤ 'Z' then Char.ofNat (c.toNat + 32) else c

def lowerL (s : List Char) : List Char := s.map asciiLowerChar

def lowerS (s : String) : String := ⟨lowerL s.data⟩

/-- Python `pat in s` substring containment on character lists. -/
def containsL : List Char → List Char → Bool
  | [], pat => pat.isEmpty
  | c :: t, pat => pat.isPrefixOf (c :: t) || containsL t pat

def containsS (s pat : String) : Bool := containsL s.data pat.data

/-- Python `u.startswith("http")`. -/
def startsHttp (u : String) : Bool := "http".data.isPrefixOf u.data

def hexVal (c : Char) : Option Nat :=
  if '0' ≤ c ∧ c ≤ '9' then some (c.toNat - 48)
  else if 'a' ≤ c ∧ c ≤ 'f' then some (c.toNat - 87)
  else if 'A' ≤ c ∧ c ≤ 'F' then some (c.toNat - 55)
  else none

/-- One pass of percent-decoding (`urllib.parse.unquote`): `%XY` with two hex
digits becomes the character with code `16*X+Y` (U+FFFD for a lone byte
≥ 128); malformed escapes are preserved verbatim. -/
def pctDecodeL : List Char → List Char
  | [] => []
  | '%' :: a :: b :: rest =>
    match hexVal a, hexVal b with
    | some x, some y =>
      (if 16 * x + y < 128 then Char.ofNat (16 * x + y) else Char.ofNat 0xFFFD)
        :: pctDecodeL rest
    | _, _ => '%' :: pctDecodeL (a :: b :: rest)
  | c :: rest => c :: pctDecodeL rest

def pyUnquote (s : String) : String := ⟨pctDecodeL s.data⟩

/-- `urllib.parse.unquote_plus`: `+` becomes a space, then percent-decoding. -/
def pyUnquotePlus (s : String) : String :=
  ⟨pctDecodeL (s.data.map fun c => if c = '+' then ' ' else c)⟩

/-- `urlparse(url).query`: strip a `#fragment`, then take the text after the
first `?` (empty if there is none). -/
def queryOfUrl (u : String) : String :=
  let noFrag := u.data.takeWhile (· ≠ '#')
  match noFrag.dropWhile (· ≠ '?') with
  | [] => ""
  | _ :: t => ⟨t⟩

def splitAmpAux (cur : List Char) : List Char → List (List Char)
  | [] => [cur.reverse]
  | '&' :: t => cur.reverse :: splitAmpAux [] t
  | c :: t => splitAmpAux (c :: cur) t

/-- Python `q.split('&')`. -/
def splitAmp (s : List Char) : List (List Char) := splitAmpAux [] s

/-- Python `field.split('=', 1)` when an `=` is present. -/
def splitEq (s : List Char) : Option (List Char × List Char) :=
  match s.dropWhile (· ≠ '=') with
  | [] => none
  | _ :: t => some (s.takeWhile (· ≠ '='), t)

/-- The raw (still percent-encoded) name/value pairs that
`parse_qsl(q, keep_blank_values=False)` keeps: empty fields, fields without
`=` and fields with an empty raw value are dropped. -/
def rawPairs (q : List Char) : List (List Char × List Char) :=
  (splitAmp q).filterMap fun field =>
    if field.isEmpty then none
    else match splitEq field with
      | none => none
      | some (n, v) => if v.isEmpty then none else some (n, v)

/-- `urllib.parse.parse_qs` restricted to the pair list: both the name and the
value of each kept raw pair are decoded with `unquote_plus`. -/
def parseQs (q : String) : List (String × String) :=
  (rawPairs q.data).map fun p => (pyUnquotePlus ⟨p.1⟩, pyUnquotePlus ⟨p.2⟩)

/-- `parse_qs(q)[k]`: all values whose decoded name equals `k`, in order. -/
def paramValues (ps : List (String × String)) (k : String) : List String :=
  (ps.filter fun p => p.1 == k).map (·.2)

/-- `LinkExtractor.extract_ccurl` (duckmail_client.py:405-432): parse the
query, look up `ccUrl` (falling back to `ccurl`), take the first value and
percent-decode it once more with `unquote`.  The source's `try/except` guard
never fires for the pure operations modelled here. -/
def extract_ccurl (url : String) : Option String :=
  let ps := parseQs (queryOfUrl url)
  let a := paramValues ps "ccUrl"
  let l := if a.isEmpty then paramValues ps "ccurl" else a
  match l.head? with
  | some v => some (pyUnquote v)
  | none => none

def quoteCh (c : Char) : Bool := c = '"' || c = '\''

/-- Try to match `href=["\x27]([^"\x27]+)["\x27]` (case-insensitive on
`href=`) at the head of `s`; on success return the captured URL and the
remaining input after the closing quote. -/
def matchHrefAt (s : List Char) : Option (List Char × List Char) :=
  match s with
  | c1 :: c2 :: c3 :: c4 :: c5 :: q :: rest =>
    if lowerL [c1, c2, c3, c4, c5] = "href=".data ∧ quoteCh q then
      let run := rest.takeWhile fun c => !quoteCh c
      match run, rest.dropWhile fun c => !quoteCh c with
      | [], _ => none
      | _, [] => none
      | _, _ :: after => some (run, after)
    else none
  | _ => none

def hrefsAux : Nat → List Char → List (List Char)
  | 0, _ => []
  | _ + 1, [] => []
  | n + 1, c :: t =>
    match matchHrefAt (c :: t) with
    | some (url, rest) => url :: hrefsAux n rest
    | none => hrefsAux n t

/-- `LinkExtractor.extract_hrefs_from_html` (duckmail_client.py:372-386):
all regex matches, left to right.  The fuel `s.length` suffices because each
scan step consumes at least one character. -/
def extract_hrefs_from_html (html : String) : List String :=
  (hrefsAux html.data.length html.data).map fun l => ⟨l⟩

def urlStopCh (c : Char) : Bool :=
  c = ' ' || c = '\t' || c = '\n' || c = '\r' ||
  c = Char.ofNat 11 || c = Char.ofNat 12 ||
  c = '<' || c = '>' || c = '"' || c = '\''

/-- Try to match `https?://[^\s<>"\x27]+` at the head of `s`. -/
def matchUrlAt (s : List Char) : Option (List Char × List Char) :=
  let tryScheme : List Char → Option (List Char × List Char) := fun scheme =>
    if scheme.isPrefixOf s then
      let rest := s.drop scheme.length
      let run := rest.takeWhile fun c => !urlStopCh c
      if run.isEmpty then none else some (scheme ++ run, rest.drop run.length)
    else none
  match tryScheme "https://".data with
  | some r => some r
  | none => tryScheme "http://".data

def urlsAux : Nat → List Char → List (List Char)
  | 0, _ => []
  | _ + 1, [] => []
  | n + 1, c :: t =>
    match matchUrlAt (c :: t) with
    | some (url, rest) => url :: urlsAux n rest
    | none => urlsAux n t

/-- `LinkExtractor.extract_urls_from_text` (duckmail_client.py:388-402). -/
def extract_urls_from_text (text : String) : List String :=
  (urlsAux text.data.length text.data).map fun l => ⟨l⟩

/-- `LinkExtractor.is_verification_link` (duckmail_client.py:434-464). -/
def is_verification_link (url : String) : Bool :=
  let l := lowerS url
  if containsS l "tappaction=cc" && containsS l "ccurl=" then true
  else if containsS l "chayns.cc/login1" then true
  else if containsS l "code=" && (containsS l "chayns" || containsS l "login") then true
  else false

/-- `EmailDetail` (duckmail_client.py:74-81). -/
structure EmailDetail where
  id : String
  subject : String
  from_address : String
  text : String
  html : List String
deriving DecidableEq

/-- Steps 1-2 of `extract_confirmation_link`: hrefs from every HTML fragment
in order; if none, URLs scanned from the plain text. -/
def collect_urls (d : EmailDetail) : List String :=
  let fromHtml := (d.html.map extract_hrefs_from_html).flatten
  if fromHtml.isEmpty then extract_urls_from_text d.text else fromHtml

/-- The fallback filter of step 3: starts with `http` and mentions no
static-asset extension (duckmail_client.py:504-509). -/
def fallbackOk (u : String) : Bool :=
  startsHttp u &&
    !([".png", ".jpg", ".gif", ".css", ".js"].any fun ext =>
        containsS (lowerS u) ext)

/-- Step 3 of `extract_confirmation_link`: whitelist filter, then the
fallback filter when the whitelist matched nothing. -/
def survivors (urls : List String) : List String :=
  let v := urls.filter is_verification_link
  if v.isEmpty then urls.filter fallbackOk else v

/-- `LinkExtractor.extract_confirmation_link` (duckmail_client.py:466-531).
`if cc_url:` followed by `if cc_url.startswith("http")` collapses to the
single `startsHttp` test because `startsHttp "" = false`. -/
def extract_confirmation_link (d : EmailDetail) : Option String :=
  match (survivors (collect_urls d)).head? with
  | none => none
  | some original =>
    match extract_ccurl original with
    | some cc => if startsHttp cc then some cc else some original
    | none => some original

/-- `EmailMessage` (duckmail_client.py:63-71). -/
structure EmailMessage where
  id : String
  subject : String
  from_address : String
  from_name : String
  created_at : String
  seen : Bool
deriving DecidableEq

def DEFAULT_SUBJECT_PATTERNS : List String :=
  ["Welcome to chayns", "verify", "activate", "confirm", "Willkommen", "bestätigen"]

def VERIFICATION_SENDERS : List String :=
  ["noreply@chayns.de", "no-reply@chayns.de"]

/-- `DuckMailClient.is_verification_email` (duckmail_client.py:330-365):
sender whitelist first (case-insensitive equality, short-circuiting), then
the subject patterns, matched case-insensitively.  All configured patterns
are literal strings, so `re.search` is substring containment. -/
def is_verification_email (subject_patterns sender_whitelist : List String)
    (m : EmailMessage) : Bool :=
  if !sender_whitelist.isEmpty &&
      (sender_whitelist.map lowerS).contains (lowerS m.from_address) then
    true
  else
    subject_patterns.any fun p => containsS (lowerS m.subject) (lowerS p)

def isVerificationEmailDefault (m : EmailMessage) : Bool :=
  is_verification_email DEFAULT_SUBJECT_PATTERNS VERIFICATION_SENDERS m

/-- The `from` sub-object of a provider message entry, as read by
`list_messages` with `.get(..., default)`. -/
structure RawFrom where
  address : Option String
  name : Option String
deriving DecidableEq

/-- One entry of the provider's `hydra:member` collection; `none` models an
absent JSON key, read with `.get(key, default)`. -/
structure RawMember where
  id : Option String
  subject : Option String
  fromInfo : Option RawFrom
  createdAt : Option String
  seen : Option Bool
deriving DecidableEq

/-- The per-entry parsing done inside `DuckMailClient.list_messages`
(duckmail_client.py:256-266). -/
def parseMember (m : RawMember) : EmailMessage :=
  { id := m.id.getD ""
    subject := m.subject.getD ""
    from_address := (match m.fromInfo with | some f => f.address.getD "" | none => "")
    from_name := (match m.fromInfo with | some f => f.name.getD "" | none => "")
    created_at := m.createdAt.getD ""
    seen := m.seen.getD false }

/-- The comparison of `messages.sort(key=lambda x: x.created_at, reverse=True)`:
`a` may precede `b` when `b.created_at ≤ a.created_at`. -/
def createdDesc (a b : EmailMessage) : Prop := b.created_at ≤ a.created_at

instance : DecidableRel createdDesc := fun a b =>
  inferInstanceAs (Decidable (b.created_at ≤ a.created_at))

/-- `DuckMailClient.list_messages` (duckmail_client.py:229-272) restricted to
its pure part: parse every `hydra:member` entry, then sort by `created_at`
descending.  Python's `list.sort` is a stable sort and so is
`List.insertionSort`; the claims proved here depend only on sortedness and
permutation. -/
def list_messages (members : List RawMember) : List EmailMessage :=
  List.insertionSort createdDesc (members.map parseMember)

/-- The listing results `MailPoller` sees, one per polling round;
`.error ()` models `list_messages` raising. -/
structure PollEnv where
  rounds : Nat → Except Unit (List EmailMessage)

inductive ScanRes where
  | found (m : EmailMessage) (seen : List String) (evald : List EmailMessage)
  | noMatch (seen : List String) (evald : List EmailMessage)
deriving DecidableEq

/-- The inner `for msg in messages` loop of `wait_for_verification_email`
(duckmail_client.py:569-583): skip ids already in `seen_ids`, add the id,
evaluate the predicate, return the first match.  `evald` records every
message on which the predicate was evaluated, in order. -/
def scanRound (pred : EmailMessage → Bool) :
    List EmailMessage → List String → List EmailMessage → ScanRes
  | [], seen, ev => .noMatch seen ev
  | m :: rest, seen, ev =>
    if m.id ∈ seen then scanRound pred rest seen ev
    else
      let seen2 := m.id :: seen
      let ev2 := ev ++ [m]
      if pred m then .found m seen2 ev2 else scanRound pred rest seen2 ev2

structure PollOut where
  result : Option EmailMessage
  evald : List EmailMessage
  elapsed : Nat
  executed : Nat
deriving DecidableEq

/-- The `while time.time() - start_time < timeout_seconds` loop of
`wait_for_verification_email` (duckmail_client.py:565-594).  Time is modelled
by `elapsed`, advanced by `interval` at the `time.sleep(poll_interval)` that
ends every round, whether the round listed messages or raised.  `executed`
counts completed (slept-after) rounds.  The fuel argument only guards
termination; with `interval ≥ 1` and fuel `timeout + 1` it never runs out
before the wall-clock condition stops the loop. -/
def pollLoop (env : PollEnv) (pred : EmailMessage → Bool) (timeout interval : Nat) :
    Nat → Nat → Nat → List String → List EmailMessage → PollOut
  | 0, elapsed, idx, _, ev => ⟨none, ev, elapsed, idx⟩
  | fuel + 1, elapsed, idx, seen, ev =>
    if timeout ≤ elapsed then ⟨none, ev, elapsed, idx⟩
    else
      match env.rounds idx with
      | .error _ => pollLoop env pred timeout interval fuel (elapsed + interval) (idx + 1) seen ev
      | .ok msgs =>
        match scanRound pred msgs seen ev with
        | .found m _ ev2 => ⟨some m, ev2, elapsed, idx⟩
        | .noMatch seen2 ev2 =>
          pollLoop env pred timeout interval fuel (elapsed + interval) (idx + 1) seen2 ev2

/-- `MailPoller.wait_for_verification_email` (duckmail_client.py:541-594). -/
def wait_for_verification_email (env : PollEnv)
    (subject_patterns sender_whitelist : List String) (timeout interval : Nat) : PollOut :=
  pollLoop env (is_verification_email subject_patterns sender_whitelist)
    timeout interval (timeout + 1) 0 0 [] []

/-- Replace a raised listing call by an empty listing (used to state that a
listing error is equivalent to a round with no new messages). -/
def cleanRound : Except Unit (List EmailMessage) → Except Unit (List EmailMessage)
  | .error _ => .ok []
  | .ok l => .ok l

instance : IsTotal EmailMessage createdDesc :=
  ⟨fun a b => le_total b.created_at a.created_at⟩

instance : IsTrans EmailMessage createdDesc :=
  ⟨fun _ _ _ hab hbc => le_trans hbc hab⟩

/-- The raw (still percent-encoded) value of the `ccUrl` query parameter of
`u`, falling back to `ccurl` — the candidates whose decoded name matches,
restricted exactly as `parse_qs` restricts them.  This is the spec-side
notion of "the parameter's value" used to state how often the extractor
percent-decodes it. -/
def firstRawCcurl (u : String) : Option String :=
  let rp := rawPairs (queryOfUrl u).data
  let a := (rp.filter fun p => pyUnquotePlus ⟨p.1⟩ == "ccUrl").map (·.2)
  let l := if a.isEmpty then (rp.filter fun p => pyUnquotePlus ⟨p.1⟩ == "ccurl").map (·.2) else a
  l.head?.map fun v => (⟨v⟩ : String)

end DuckMail

/-!
Part 2 embeds the orchestrator `AutoRegister.execute` of
`src/autoregister.py` as a state machine over an abstract environment
describing how the external collaborators (mailbox provider, target site,
browser) behave at each step.

* Wall-clock time is abstracted by `Env.clock`: the value of
  `time.time() - self.start_time` observed at the n-th call of
  `_check_timeout`, compared against `GLOBAL_TIMEOUT_SECONDS` (default 180).
* `RunState.log` records, in order, every state entered (`self.state = ...`)
  and every `_check_timeout` call, tagged with the state current at the call.
* Browser sub-steps whose internals no claim mentions (opening the site and
  clicking the login entry, entering the email, filling the located name
  inputs, opening the confirmation link and locating the password inputs)
  are collapsed to a single environment boolean: `true` means the step's
  bounded waits succeed, `false` means its element lookups fail and the
  step raises its `AssertionFailedException`.
* `_verify_login_and_extract_credentials` evaluates
  `Config.PAGE_WAIT_TIMEOUT` at autoregister.py:1006, but no name `Config`
  is defined or imported anywhere in that module (the configuration class is
  `AutoRegisterConfig`).  Evaluating the argument of `WebDriverWait`
  therefore raises `NameError` unconditionally, before any waiting begins;
  the rest of the method (cookie wait, `window.cwInfo` extraction, result
  assembly) is unreachable, as are steps 9-10 of `execute` and its
  successful return.  The step is embedded accordingly.
-/

namespace AutoReg

open DuckMail

/-- `RegisterState` (autoregister.py:121-135). -/
inductive RegisterState where
  | init
  | duckmailCreated
  | siteOpened
  | loginEntry
  | emailEntered
  | branchDetected
  | registerForm
  | waitingEmail
  | confirmationLink
  | setPassword
  | verifyLogin
  | complete
  | failed
deriving DecidableEq

inductive RunEvent where
  | enter (s : RegisterState)
  | tcheck (s : RegisterState)
deriving DecidableEq

structure RunState where
  state : RegisterState
  email : String
  ticks : Nat
  log : List RunEvent
deriving DecidableEq

/-- The exception taxonomy of autoregister.py:139-163.
`emailExists` is `EmailExistsException` (fixed code 409, fixed state label
`branch_detected`); `pythonError` is any exception that is not an
`AutoRegisterException` and is wrapped by `execute`'s final handler. -/
inductive RunError where
  | emailExists (email : String)
  | timeoutExceeded (msg : String) (st : RegisterState)
  | assertionFailed (msg : String) (st : RegisterState)
  | autoRegister (msg : String) (code : Nat) (st : RegisterState)
  | pythonError (msg : String)
deriving DecidableEq

def RunError.code : RunError → Nat
  | .emailExists _ => 409
  | .timeoutExceeded _ _ => 504
  | .assertionFailed _ _ => 422
  | .autoRegister _ c _ => c
  | .pythonError _ => 500

inductive StepOut where
  | ok (s : RunState)
  | err (e : RunError) (s : RunState)
deriving DecidableEq

/-- Sequencing of steps: an exception propagates past the rest of the
method body, carrying the mutated object state with it. -/
def seqStep (r : StepOut) (f : RunState → StepOut) : StepOut :=
  match r with
  | .ok s => f s
  | .err e s => .err e s

/-- What `_detect_branch` can observe on the page during one polling attempt
(autoregister.py:484-524): a visible password input, a create-account
keyword in the page text, visible name inputs. -/
structure BranchObs where
  passwordVisible : Bool
  createKeyword : Bool
  nameInputsVisible : Bool
deriving DecidableEq

/-- Behaviour of the external collaborators, per step / per attempt. -/
structure Env where
  clock : Nat → Nat
  createAccountAddr : Option String
  tokenOk : Bool
  openSiteOk : Bool
  enterEmailOk : Bool
  branchObs : Nat → BranchObs
  nameInputsFound : Nat → Bool
  formContinueOk : Bool
  pollRounds : Nat → Except Unit (List EmailMessage)
  messageDetail : String → Option EmailDetail
  passwordPageOk : Bool

/-- `AutoRegisterConfig.GLOBAL_TIMEOUT_SECONDS` with its default (180). -/
def GLOBAL_TIMEOUT_SECONDS : Nat := 180

def enterState (st : RegisterState) (s : RunState) : RunState :=
  { s with state := st, log := s.log ++ [.enter st] }

def afterCheck (s : RunState) : RunState :=
  { s with ticks := s.ticks + 1, log := s.log ++ [.tcheck s.state] }

/-- `AutoRegister._check_timeout` (autoregister.py:231-234): raise
`TimeoutExceededException` carrying the current state when the elapsed time
exceeds the global ceiling. -/
def checkTimeout (env : Env) (s : RunState) : StepOut :=
  if GLOBAL_TIMEOUT_SECONDS < env.clock s.ticks then
    .err (.timeoutExceeded "全局超时 (180s)" s.state) (afterCheck s)
  else .ok (afterCheck s)

/-- `AutoRegister._init_duckmail` (autoregister.py:299-325): create the
mailbox, fail with code 500 on an empty address, get the token, record the
address as the run's email and enter DUCKMAIL_CREATED. -/
def initDuckmail (env : Env) (s : RunState) : StepOut :=
  match env.createAccountAddr with
  | none => .err (.pythonError "requests error in create_account") s
  | some addr =>
    if addr = "" then .err (.autoRegister "创建 DuckMail 邮箱失败" 500 s.state) s
    else if env.tokenOk then .ok (enterState .duckmailCreated { s with email := addr })
    else .err (.pythonError "requests error in get_token") s

/-- `AutoRegister._open_site_and_login_entry` (autoregister.py:327-381),
collapsed: on success the run enters SITE_OPENED then LOGIN_ENTRY. -/
def openSiteLoginEntry (env : Env) (s : RunState) : StepOut :=
  if env.openSiteOk then .ok (enterState .loginEntry (enterState .siteOpened s))
  else .err (.assertionFailed "未找到登录按钮" s.state) s

/-- `AutoRegister._enter_email` (autoregister.py:383-429), collapsed. -/
def enterEmail (env : Env) (s : RunState) : StepOut :=
  if env.enterEmailOk then .ok (enterState .emailEntered s)
  else .err (.assertionFailed "未找到邮箱输入框或继续按钮" s.state) s

/-- The `for attempt in range(max_attempts)` loop of `_detect_branch`
(autoregister.py:484-529): each attempt checks the global timeout, then the
signals in priority order — visible password input first (raising
`EmailExistsException(self.email)`), then create-account keywords, then
visible name inputs (both entering BRANCH_DETECTED). -/
def detectBranchLoop (env : Env) : Nat → Nat → RunState → StepOut
  | _, 0, s => .err (.assertionFailed "无法确定注册/登录分支" s.state) s
  | idx, fuel + 1, s =>
    seqStep (checkTimeout env s) fun s1 =>
      let obs := env.branchObs idx
      if obs.passwordVisible then .err (.emailExists s1.email) s1
      else if obs.createKeyword then .ok (enterState .branchDetected s1)
      else if obs.nameInputsVisible then .ok (enterState .branchDetected s1)
      else detectBranchLoop env (idx + 1) fuel s1

def detectBranch (env : Env) (s : RunState) : StepOut := detectBranchLoop env 0 10 s

/-- The attempt loop of `_find_name_inputs` (autoregister.py:655-748): each
of up to 10 attempts checks the global timeout first. -/
def findNameLoop (env : Env) : Nat → Nat → RunState → StepOut
  | _, 0, s => .err (.assertionFailed "未找到姓名输入框" s.state) s
  | idx, fuel + 1, s =>
    seqStep (checkTimeout env s) fun s1 =>
      if env.nameInputsFound idx then .ok s1
      else findNameLoop env (idx + 1) fuel s1

/-- `AutoRegister._fill_register_form` (autoregister.py:589-643): enters
REGISTER_FORM at its start, then locates the name inputs. -/
def fillRegisterForm (env : Env) (s : RunState) : StepOut :=
  seqStep (findNameLoop env 0 10 (enterState .registerForm s)) fun s1 =>
    if env.formContinueOk then .ok s1
    else .err (.assertionFailed "未找到继续按钮" s1.state) s1

inductive PollScan where
  | gotLink (link : String) (seen : List String)
  | fail (seen : List String)
deriving DecidableEq

/-- The inner `for msg in messages` scan of `_wait_for_confirmation_link`
(autoregister.py:781-799): skip seen ids, record the id, test
`is_verification_email` with the default patterns, fetch the detail
(`none` models `get_message` raising, which aborts the round through the
surrounding `except`), extract the confirmation link; a falsy link keeps
scanning. -/
def scanMsgs (env : Env) : List EmailMessage → List String → PollScan
  | [], seen => .fail seen
  | m :: rest, seen =>
    if m.id ∈ seen then scanMsgs env rest seen
    else
      let seen2 := m.id :: seen
      if isVerificationEmailDefault m then
        match env.messageDetail m.id with
        | none => .fail seen2
        | some dtl =>
          match extract_confirmation_link dtl with
          | some link => if link = "" then scanMsgs env rest seen2 else .gotLink link seen2
          | none => scanMsgs env rest seen2
      else scanMsgs env rest seen2

inductive LinkOut where
  | ok (link : String) (s : RunState)
  | err (e : RunError) (s : RunState)
deriving DecidableEq

/-- The `for attempt in range(EMAIL_POLL_MAX_ATTEMPTS)` loop of
`_wait_for_confirmation_link` (autoregister.py:769-807): each attempt checks
the global timeout, then lists messages (a raised listing is caught and the
round ends), scans, and sleeps. -/
def waitEmailLoop (env : Env) : Nat → Nat → List String → RunState → LinkOut
  | _, 0, _, s => .err (.timeoutExceeded "等待验证邮件超时" s.state) s
  | idx, fuel + 1, seen, s =>
    match checkTimeout env s with
    | .err e s1 => .err e s1
    | .ok s1 =>
      match env.pollRounds idx with
      | .error _ => waitEmailLoop env (idx + 1) fuel seen s1
      | .ok msgs =>
        match scanMsgs env msgs seen with
        | .gotLink link _ => .ok link s1
        | .fail seen2 => waitEmailLoop env (idx + 1) fuel seen2 s1

/-- `AutoRegister._wait_for_confirmation_link` (autoregister.py:750-815):
enters WAITING_EMAIL at the start, CONFIRMATION_LINK on success. -/
def waitForConfirmationLink (env : Env) (s : RunState) : LinkOut :=
  match waitEmailLoop env 0 40 [] (enterState .waitingEmail s) with
  | .ok link s1 => .ok link (enterState .confirmationLink s1)
  | .err e s1 => .err e s1

/-- `AutoRegister._open_confirmation_link_and_set_password`
(autoregister.py:817-896): enters SET_PASSWORD at its start; contains no
`_check_timeout` call. -/
def setPasswordStep (env : Env) (s : RunState) : StepOut :=
  let s0 := enterState .setPassword s
  if env.passwordPageOk then .ok s0
  else .err (.assertionFailed "未找到密码输入框" s0.state) s0

def NAME_ERROR_MSG : String := "NameError: name Config is not defined"

/-- `AutoRegister._verify_login_and_extract_credentials`
(autoregister.py:994-1074): enters VERIFY_LOGIN, then evaluates
`Config.PAGE_WAIT_TIMEOUT` at line 1006 — `Config` is undefined in the
module, so a `NameError` is raised unconditionally; everything after line
1006 is unreachable and is therefore not modelled. -/
def verifyLoginStep (s : RunState) : StepOut :=
  .err (.pythonError NAME_ERROR_MSG) (enterState .verifyLogin s)

/-- `AutoRegisterRequest` (autoregister.py:96-100). -/
structure AutoRegisterRequest where
  first_name : String
  last_name : String
  password : Option String
deriving DecidableEq

def DEFAULT_PASSWORD : String := "12345Abc"

def validRequest (r : AutoRegisterRequest) : Prop :=
  1 ≤ r.first_name.length ∧ r.first_name.length ≤ 50 ∧
  1 ≤ r.last_name.length ∧ r.last_name.length ≤ 50 ∧
  (∀ p, r.password = some p → 8 ≤ p.length ∧ p.length ≤ 100)

def initialRunState : RunState := { state := .init, email := "", ticks := 0, log := [] }

/-- The `try` body of `AutoRegister.execute` (autoregister.py:1154-1202):
the numbered steps with a `_check_timeout` after each of steps 1-6 and,
deliberately, none after step 7 (the password-setting step). -/
def executeCore (env : Env) (s0 : RunState) : StepOut :=
  seqStep (initDuckmail env s0) fun s1 =>
  seqStep (checkTimeout env s1) fun s2 =>
  seqStep (openSiteLoginEntry env s2) fun s3 =>
  seqStep (checkTimeout env s3) fun s4 =>
  seqStep (enterEmail env s4) fun s5 =>
  seqStep (checkTimeout env s5) fun s6 =>
  seqStep (detectBranch env s6) fun s7 =>
  seqStep (checkTimeout env s7) fun s8 =>
  seqStep (fillRegisterForm env s8) fun s9 =>
  seqStep (checkTimeout env s9) fun s10 =>
  match waitForConfirmationLink env s10 with
  | .err e s11 => .err e s11
  | .ok _ s11 =>
    seqStep (checkTimeout env s11) fun s12 =>
    seqStep (setPasswordStep env s12) fun s13 =>
    verifyLoginStep s13

/-- `AutoRegister.execute` (autoregister.py:1149-1210): run the step
sequence; on an `AutoRegisterException` set FAILED and re-raise unchanged;
on any other exception set FAILED and wrap it with code 500 and the (by
then FAILED) state label, exactly as lines 1204-1210 do.  The request does
not influence control flow (its fields are only typed into the browser). -/
def executeRun (env : Env) (_req : AutoRegisterRequest) : Option RunError × RunState :=
  match executeCore env initialRunState with
  | .ok s => (none, enterState .complete s)
  | .err e s =>
    let sF := enterState .failed s
    match e with
    | .pythonError msg => (some (.autoRegister msg 500 .failed), sF)
    | e2 => (some e2, sF)

def isTCheck : RunEvent → Bool
  | .tcheck _ => true
  | .enter _ => false

def countTChecks (l : List RunEvent) : Nat := (l.filter isTCheck).length

def stateOf : StepOut → RunState
  | .ok s => s
  | .err _ s => s

def linkStateOf : LinkOut → RunState
  | .ok _ s => s
  | .err _ s => s

/-- The log of `s2` extends the log of `s` by a stretch that never enters
SET_PASSWORD and contains at least `n` timeout checks. -/
def ExtOk (s s2 : RunState) (n : Nat) : Prop :=
  ∃ ext, s2.log = s.log ++ ext
    ∧ RunEvent.enter RegisterState.setPassword ∉ ext
    ∧ n ≤ countTChecks ext

/-- A healthy environment for witnesses: every collaborator behaves as
expected at every step, the clock never exceeds the budget. -/
def witMsg : EmailMessage :=
  ⟨"1", "Welcome to chayns", "noreply@chayns.de", "chayns", "2024-01-01T00:00:00", false⟩

def witDetail : EmailDetail :=
  ⟨"1", "Welcome to chayns", "noreply@chayns.de", "",
   ["<a href=\"https://x.test/r?tappAction=cc&ccUrl=https%3A%2F%2Fchayns.cc%2Flogin1%3Fcode%3Dabc\">Go</a>"]⟩

def healthyEnv : Env :=
  { clock := fun _ => 0
    createAccountAddr := some "test123@duckmail.sbs"
    tokenOk := true
    openSiteOk := true
    enterEmailOk := true
    branchObs := fun _ => ⟨false, true, false⟩
    nameInputsFound := fun _ => true
    formContinueOk := true
    pollRounds := fun _ => .ok [witMsg]
    messageDetail := fun _ => some witDetail
    passwordPageOk := true }

/-- A variant of the healthy environment where a visible password input
appears on the first branch-detection attempt. -/
def existsEnv : Env := { healthyEnv with branchObs := fun _ => ⟨true, false, false⟩ }

def witReq : AutoRegisterRequest := ⟨"Max", "Muster", none⟩

end AutoReg

/-!
Part 3 embeds the run-exclusivity protocol of `handle_autoregister`
(autoregister.py:1214-1247) around the module-level
`_autoregister_lock = threading.Lock()` (line 46): a non-blocking
`acquire(blocking=False)`; when it fails, an immediate HTTP 503 "busy"
rejection raised before the `try` block (so the rejected request never runs
the orchestration and never releases the lock); otherwise the orchestration
body runs inside `try`, and the `finally` block releases the lock on every
exit path, whether the body returned or raised.

Two concurrent requests are modelled as two threads, each taking up to three
atomic actions — `acquire` (the test-and-set of `Lock.acquire`; CPython
guarantees its atomicity), `bodyDone ok` (the body returning, `ok = true`,
or raising, `ok = false`), and `release` (the `finally`) — interleaved in an
arbitrary order by a trace of moves.
-/

namespace LockModel

inductive TState where
  | start
  | holding
  | cleanup (ok : Bool)
  | doneBusy
  | doneRun (ok : Bool)
deriving DecidableEq, Fintype

structure Sys where
  lock : Bool
  t1 : TState
  t2 : TState
deriving DecidableEq, Fintype

inductive Tid where
  | a
  | b
deriving DecidableEq, Fintype

inductive Act where
  | acquire
  | bodyDone (ok : Bool)
  | release
deriving DecidableEq, Fintype

def tOf (s : Sys) : Tid → TState
  | .a => s.t1
  | .b => s.t2

def setT (s : Sys) : Tid → TState → Sys
  | .a, st => { s with t1 := st }
  | .b, st => { s with t2 := st }

/-- One atomic action of one thread; `none` when the action is not the
thread's next action.  `acquire` from `start` never blocks: it immediately
yields either `holding` (permit taken) or `doneBusy` (immediate 503
rejection). -/
def stepMove (s : Sys) (mv : Tid × Act) : Option Sys :=
  match mv.2, tOf s mv.1 with
  | .acquire, .start =>
    if s.lock then some (setT s mv.1 .doneBusy)
    else some (setT { s with lock := true } mv.1 .holding)
  | .bodyDone ok, .holding => some (setT s mv.1 (.cleanup ok))
  | .release, .cleanup ok => some (setT { s with lock := false } mv.1 (.doneRun ok))
  | _, _ => none

def runTrace : Sys → List (Tid × Act) → Option Sys
  | s, [] => some s
  | s, mv :: rest =>
    match stepMove s mv with
    | none => none
    | some s2 => runTrace s2 rest

def initSys : Sys := { lock := false, t1 := .start, t2 := .start }

def activeB : TState → Bool
  | .holding => true
  | .cleanup _ => true
  | _ => false

def busyB : TState → Bool
  | .doneBusy => true
  | _ => false

def finishedB : TState → Bool
  | .doneRun _ => true
  | _ => false

def doneB : TState → Bool
  | .doneBusy => true
  | .doneRun _ => true
  | _ => false

def isRel : Tid × Act → Bool
  | (_, .release) => true
  | _ => false

/-- The system invariant: the permit is held exactly while some thread is
between a successful acquire and its release; at most one thread is in that
region; at most one thread was rejected busy. -/
def SysInv (s : Sys) : Prop :=
  s.lock = (activeB s.t1 || activeB s.t2)
  ∧ ¬(activeB s.t1 = true ∧ activeB s.t2 = true)
  ∧ ¬(busyB s.t1 = true ∧ busyB s.t2 = true)

/-- Rel-free reachability shape: before any release has happened, nobody has
finished a held run, and either someone has not tried to acquire yet, or
exactly one thread holds the permit and the other was rejected busy. -/
def RelFreeShape (s : Sys) : Prop :=
  (finishedB s.t1 = false ∧ finishedB s.t2 = false)
  ∧ ((s.t1 = .start ∨ s.t2 = .start)
     ∨ (activeB s.t1 = true ∧ s.t2 = .doneBusy)
     ∨ (s.t1 = .doneBusy ∧ activeB s.t2 = true))

instance (s : Sys) : Decidable (SysInv s) := by
  unfold SysInv
  infer_instance

instance (s : Sys) : Decidable (RelFreeShape s) := by
  unfold RelFreeShape
  infer_instance

end LockModel

namespace DuckMail

/-- Concrete message detail whose only link carries a doubly percent-encoded
`ccUrl` value. -/
def c2detail : EmailDetail :=
  ⟨"m2", "s", "noreply@chayns.de", "",
   ["<a href=\"https://x.test/r?tappAction=cc&ccUrl=http%253A%252F%252Fa.test%252Fp\">Go</a>"]⟩

def c2url : String := "https://x.test/r?tappAction=cc&ccUrl=http%253A%252F%252Fa.test%252Fp"

/-- Concrete message detail whose only link is a relative redirector URL
that matches the whitelist but is not an http(s) URL. -/
def c3detail : EmailDetail :=
  ⟨"m3", "s", "", "", ["<a href='/r?tappAction=cc&ccUrl=abc'>x</a>"]⟩

/-- Concrete message detail whose only link is a non-whitelisted static
asset. -/
def c8detail : EmailDetail :=
  ⟨"m8", "s", "", "", ["<a href=\"https://cdn.test/logo.png\">x</a>"]⟩

def pwMsg1 : EmailMessage := ⟨"1", "random mail", "x@y.test", "n", "", false⟩

def pwMsg2 : EmailMessage := ⟨"2", "Welcome to chayns", "x@y.test", "n", "", false⟩

/-- Two polling rounds; the first message is listed again (same id) in the
second round. -/
def dedupEnv : PollEnv := ⟨fun i => if i = 0 then .ok [pwMsg1] else .ok [pwMsg1, pwMsg2]⟩

def errEnv : PollEnv := ⟨fun i => if i = 0 then .error () else .ok []⟩

def emptyEnv : PollEnv := ⟨fun _ => .ok []⟩

end DuckMail

/-! ### Theorems -/

namespace DuckMail

theorem memOfHeadEq {α : Type} {l : List α} {a : α} (h : l.head? = some a) : a ∈ l := by
  cases l with
  | nil => simp at h
  | cons x t =>
    simp only [List.head?_cons, Option.some.injEq] at h
    exact h ▸ List.mem_cons_self x t

/-- The query-parameter lookup done by `extract_ccurl` equals the raw-pair
lookup followed by the query parser's own `unquote_plus` decoding. -/
theorem paramValues_parseQs (q k : String) :
    paramValues (parseQs q) k
      = ((rawPairs q.data).filter fun p => pyUnquotePlus ⟨p.1⟩ == k).map
          fun p => pyUnquotePlus ⟨p.2⟩ := by
  unfold paramValues parseQs
  rw [List.filter_map, List.map_map]
  rfl

/-- C2 counterexample: for the doubly percent-encoded parameter value
`http%253A%252F%252Fa.test%252Fp`, decoding exactly once yields
`http%3A%2F%2Fa.test%2Fp`, which starts with `http`, so the claim predicts
that value as the result — but `extract_confirmation_link` returns the
twice-decoded `http://a.test/p` (the query parser decodes once and
`extract_ccurl` applies `unquote` once more). -/
theorem c2_counterexample :
    extract_confirmation_link c2detail = some "http://a.test/p"
    ∧ firstRawCcurl c2url = some "http%253A%252F%252Fa.test%252Fp"
    ∧ pyUnquote "http%253A%252F%252Fa.test%252Fp" = "http%3A%2F%2Fa.test%2Fp"
    ∧ startsHttp "http%3A%2F%2Fa.test%2Fp" = true
    ∧ ("http://a.test/p" : String) ≠ "http%3A%2F%2Fa.test%2Fp" := by decide

/-- C2 (amended): the first surviving candidate's `ccUrl`/`ccurl` parameter
value is percent-decoded twice — once by the query parser and once more by
`extract_ccurl` — and the twice-decoded value is returned when it starts
with `http`; otherwise the original undecoded candidate URL is returned. -/
theorem c2_ccurl_double_decode (d : EmailDetail) (u : String)
    (h : (survivors (collect_urls d)).head? = some u) :
    (extract_confirmation_link d =
      match extract_ccurl u with
      | some cc => if startsHttp cc then some cc else some u
      | none => some u)
    ∧ (∀ raw, firstRawCcurl u = some raw →
        extract_ccurl u = some (pyUnquote (pyUnquotePlus raw))) := by
  constructor
  · unfold extract_confirmation_link
    rw [h]
  · intro raw hraw
    unfold firstRawCcurl at hraw
    unfold extract_ccurl
    dsimp only at hraw ⊢
    rw [paramValues_parseQs, paramValues_parseQs]
    cases hA : (rawPairs (queryOfUrl u).data).filter
        (fun p => pyUnquotePlus ⟨p.1⟩ == "ccUrl") with
    | nil =>
      simp only [hA, List.map_nil, List.isEmpty_nil, if_true] at hraw ⊢
      cases hB : (rawPairs (queryOfUrl u).data).filter
          (fun p => pyUnquotePlus ⟨p.1⟩ == "ccurl") with
      | nil => simp [hB] at hraw
      | cons r t =>
        simp only [hB] at hraw ⊢
        simp at hraw
        subst hraw
        rfl
    | cons r t =>
      simp only [hA] at hraw ⊢
      simp at hraw
      subst hraw
      rfl

theorem c2_ccurl_double_decode_witness :
    (extract_confirmation_link c2detail =
      match extract_ccurl c2url with
      | some cc => if startsHttp cc then some cc else some c2url
      | none => some c2url)
    ∧ extract_ccurl c2url
        = some (pyUnquote (pyUnquotePlus "http%253A%252F%252Fa.test%252Fp")) :=
  ⟨(c2_ccurl_double_decode c2detail c2url (by decide)).1,
   (c2_ccurl_double_decode c2detail c2url (by decide)).2
     "http%253A%252F%252Fa.test%252Fp" (by decide)⟩

/-- C3 counterexample: a relative redirector URL matches the whitelist, its
`ccUrl` decodes to a non-`http` value, and the extractor falls back to the
original candidate — returning a URL that is not an http(s) URL. -/
theorem c3_counterexample :
    extract_confirmation_link c3detail = some "/r?tappAction=cc&ccUrl=abc"
    ∧ startsHttp "/r?tappAction=cc&ccUrl=abc" = false := by decide

/-- C3 (amended): every URL returned by `extract_confirmation_link` either
starts with `http` or matches the verification-link whitelist; the
extraction can return a non-http(s) URL only through the whitelist path. -/
theorem c3_extraction_http_or_whitelisted (d : EmailDetail) (u : String)
    (h : extract_confirmation_link d = some u) :
    startsHttp u = true ∨ is_verification_link u = true := by
  unfold extract_confirmation_link at h
  cases hh : (survivors (collect_urls d)).head? with
  | none => rw [hh] at h; exact absurd h (by simp)
  | some orig =>
    rw [hh] at h
    dsimp only at h
    have hmem : orig ∈ survivors (collect_urls d) := memOfHeadEq hh
    have hkey : is_verification_link orig = true ∨ startsHttp orig = true := by
      unfold survivors at hmem
      by_cases hv : ((collect_urls d).filter is_verification_link).isEmpty = true
      · simp only [hv, if_true] at hmem
        have := List.of_mem_filter hmem
        right
        unfold fallbackOk at this
        exact (Bool.and_eq_true _ _ |>.mp this).1
      · simp only [hv, if_false] at hmem
        exact Or.inl (List.of_mem_filter hmem)
    cases hcc : extract_ccurl orig with
    | none =>
      rw [hcc] at h
      dsimp only at h
      simp only [Option.some.injEq] at h
      subst h
      exact hkey.elim Or.inr Or.inl
    | some cc =>
      rw [hcc] at h
      dsimp only at h
      by_cases hs : startsHttp cc = true
      · rw [if_pos hs] at h
        simp only [Option.some.injEq] at h
        subst h
        exact Or.inl hs
      · rw [if_neg hs] at h
        simp only [Option.some.injEq] at h
        subst h
        exact hkey.elim Or.inr Or.inl

theorem c3_extraction_http_or_whitelisted_witness :
    startsHttp "/r?tappAction=cc&ccUrl=abc" = true
    ∨ is_verification_link "/r?tappAction=cc&ccUrl=abc" = true :=
  c3_extraction_http_or_whitelisted c3detail "/r?tappAction=cc&ccUrl=abc" (by decide)

/-- C8: when the only collected URL matches no whitelist rule and also fails
the fallback filter (which admits only URLs that start with `http` and
reference no static-asset extension), the extraction returns none — the
static-asset exclusion applies even in the fallback path. -/
theorem c8_static_asset_fallback_none (d : EmailDetail) (u : String)
    (h1 : collect_urls d = [u]) (h2 : is_verification_link u = false)
    (h3 : fallbackOk u = false) :
    extract_confirmation_link d = none := by
  unfold extract_confirmation_link survivors
  rw [h1]
  simp [List.filter, h2, h3]

theorem c8_static_asset_fallback_none_witness :
    collect_urls c8detail = ["https://cdn.test/logo.png"]
    ∧ extract_confirmation_link c8detail = none :=
  ⟨by decide,
   c8_static_asset_fallback_none c8detail "https://cdn.test/logo.png"
     (by decide) (by decide) (by decide)⟩

/-- Invariants of the inner message scan: evaluated messages are all
predicate-false, their ids are distinct, and every evaluated id has been
recorded in `seen`; a found message is predicate-true and last among the
evaluated ones. -/
theorem scanRound_spec (pred : EmailMessage → Bool) :
    ∀ (msgs : List EmailMessage) (seen : List String) (ev : List EmailMessage),
    (∀ m ∈ ev, pred m = false) →
    (ev.map (fun m => m.id)).Nodup →
    (∀ x ∈ ev.map (fun m => m.id), x ∈ seen) →
    (∀ seen2 ev2, scanRound pred msgs seen ev = .noMatch seen2 ev2 →
       (∀ m ∈ ev2, pred m = false)
       ∧ (ev2.map (fun m => m.id)).Nodup
       ∧ (∀ x ∈ ev2.map (fun m => m.id), x ∈ seen2))
    ∧ (∀ m seen2 ev2, scanRound pred msgs seen ev = .found m seen2 ev2 →
       pred m = true
       ∧ (ev2.map (fun m => m.id)).Nodup
       ∧ ∃ pre, ev2 = pre ++ [m] ∧ ∀ x ∈ pre, pred x = false) := by
  intro msgs
  induction msgs with
  | nil =>
    intro seen ev h1 h2 h3
    constructor
    · intro seen2 ev2 h
      simp only [scanRound] at h
      cases h
      exact ⟨h1, h2, h3⟩
    · intro m seen2 ev2 h
      simp only [scanRound] at h
      simp at h
  | cons m rest ih =>
    intro seen ev h1 h2 h3
    by_cases hmem : m.id ∈ seen
    · have hstep : scanRound pred (m :: rest) seen ev = scanRound pred rest seen ev := by
        simp [scanRound, hmem]
      rw [hstep]
      exact ih seen ev h1 h2 h3
    · by_cases hpred : pred m = true
      · have hstep : scanRound pred (m :: rest) seen ev
            = .found m (m.id :: seen) (ev ++ [m]) := by
          simp [scanRound, hmem, hpred]
        rw [hstep]
        constructor
        · intro seen2 ev2 h
          cases h
        · intro m2 seen2 ev2 h
          cases h
          refine ⟨hpred, ?_, ev, rfl, h1⟩
          rw [List.map_append]
          simp only [List.map_cons, List.map_nil]
          rw [List.nodup_append]
          refine ⟨h2, List.nodup_singleton _, ?_⟩
          intro x hx hx2
          simp at hx2
          exact hmem (hx2 ▸ h3 x hx)
      · have hstep : scanRound pred (m :: rest) seen ev
            = scanRound pred rest (m.id :: seen) (ev ++ [m]) := by
          simp [scanRound, hmem, hpred]
        rw [hstep]
        apply ih
        · intro x hx
          rcases List.mem_append.mp hx with h | h
          · exact h1 x h
          · simp at h
            rw [h]
            exact Bool.eq_false_iff.mpr (fun hc => hpred hc)
        · rw [List.map_append]
          simp only [List.map_cons, List.map_nil]
          rw [List.nodup_append]
          refine ⟨h2, List.nodup_singleton _, ?_⟩
          intro x hx hx2
          simp at hx2
          exact hmem (hx2 ▸ h3 x hx)
        · intro x hx
          rw [List.map_append] at hx
          rcases List.mem_append.mp hx with h | h
          · exact List.mem_cons_of_mem _ (h3 x h)
          · simp at h
            rw [h]
            exact List.mem_cons_self _ _

theorem pollLoop_spec (env : PollEnv) (pred : EmailMessage → Bool)
    (timeout interval : Nat) :
    ∀ (fuel elapsed idx : Nat) (seen : List String) (ev : List EmailMessage),
    (∀ m ∈ ev, pred m = false) →
    (ev.map (fun m => m.id)).Nodup →
    (∀ x ∈ ev.map (fun m => m.id), x ∈ seen) →
    ((pollLoop env pred timeout interval fuel elapsed idx seen ev).evald.map
        (fun m => m.id)).Nodup
    ∧ (∀ m, (pollLoop env pred timeout interval fuel elapsed idx seen ev).result = some m →
        pred m = true
        ∧ ∃ pre, (pollLoop env pred timeout interval fuel elapsed idx seen ev).evald
              = pre ++ [m]
            ∧ ∀ x ∈ pre, pred x = false) := by
  intro fuel
  induction fuel with
  | zero =>
    intro elapsed idx seen ev h1 h2 h3
    simp only [pollLoop]
    exact ⟨h2, by intro m h; simp at h⟩
  | succ fuel ih =>
    intro elapsed idx seen ev h1 h2 h3
    by_cases ht : timeout ≤ elapsed
    · simp only [pollLoop, if_pos ht]
      exact ⟨h2, by intro m h; simp at h⟩
    · cases hr : env.rounds idx with
      | error e =>
        simp only [pollLoop, if_neg ht, hr]
        exact ih (elapsed + interval) (idx + 1) seen ev h1 h2 h3
      | ok msgs =>
        cases hs : scanRound pred msgs seen ev with
        | noMatch seen2 ev2 =>
          simp only [pollLoop, if_neg ht, hr, hs]
          obtain ⟨hA, hB, hC⟩ := (scanRound_spec pred msgs seen ev h1 h2 h3).1 seen2 ev2 hs
          exact ih (elapsed + interval) (idx + 1) seen2 ev2 hA hB hC
        | found m seen2 ev2 =>
          simp only [pollLoop, if_neg ht, hr, hs]
          obtain ⟨hA, hB, hC⟩ := (scanRound_spec pred msgs seen ev h1 h2 h3).2 m seen2 ev2 hs
          refine ⟨hB, ?_⟩
          intro m2 h
          simp only [Option.some.injEq] at h
          subst h
          exact ⟨hA, hC⟩

/-- C5: within one call of `wait_for_verification_email`, the verification
predicate is evaluated on distinct message ids only (deduplication by the
growing `seen_ids` set holds across polls), and a returned message is a
predicate match preceded, in evaluation order, only by non-matches — the
first matching newly seen message. -/
theorem c5_poller_dedup (env : PollEnv) (pats wl : List String)
    (timeout interval : Nat) :
    ((wait_for_verification_email env pats wl timeout interval).evald.map
        (fun m => m.id)).Nodup
    ∧ (∀ m, (wait_for_verification_email env pats wl timeout interval).result = some m →
        is_verification_email pats wl m = true
        ∧ ∃ pre, (wait_for_verification_email env pats wl timeout interval).evald
              = pre ++ [m]
            ∧ ∀ x ∈ pre, is_verification_email pats wl x = false) := by
  unfold wait_for_verification_email
  exact pollLoop_spec env _ timeout interval (timeout + 1) 0 0 [] []
    (by intro m h; simp at h) (by simp) (by intro x h; simp at h)

theorem c5_poller_dedup_witness :
    ((wait_for_verification_email dedupEnv DEFAULT_SUBJECT_PATTERNS VERIFICATION_SENDERS
        4 2).evald.map (fun m => m.id)).Nodup
    ∧ is_verification_email DEFAULT_SUBJECT_PATTERNS VERIFICATION_SENDERS pwMsg2 = true
    ∧ ∃ pre, (wait_for_verification_email dedupEnv DEFAULT_SUBJECT_PATTERNS
          VERIFICATION_SENDERS 4 2).evald = pre ++ [pwMsg2]
        ∧ ∀ x ∈ pre, is_verification_email DEFAULT_SUBJECT_PATTERNS VERIFICATION_SENDERS x
            = false :=
  ⟨(c5_poller_dedup dedupEnv DEFAULT_SUBJECT_PATTERNS VERIFICATION_SENDERS 4 2).1,
   ((c5_poller_dedup dedupEnv DEFAULT_SUBJECT_PATTERNS VERIFICATION_SENDERS 4 2).2 pwMsg2
      (by decide)).1,
   ((c5_poller_dedup dedupEnv DEFAULT_SUBJECT_PATTERNS VERIFICATION_SENDERS 4 2).2 pwMsg2
      (by decide)).2⟩

theorem scanRound_allFalse (pred : EmailMessage → Bool) :
    ∀ (msgs : List EmailMessage) (seen : List String) (ev : List EmailMessage),
    (∀ m ∈ msgs, pred m = false) →
    ∃ seen2 ev2, scanRound pred msgs seen ev = .noMatch seen2 ev2 := by
  intro msgs
  induction msgs with
  | nil => intro seen ev _; exact ⟨seen, ev, rfl⟩
  | cons m rest ih =>
    intro seen ev h
    by_cases hmem : m.id ∈ seen
    · have hstep : scanRound pred (m :: rest) seen ev = scanRound pred rest seen ev := by
        simp [scanRound, hmem]
      rw [hstep]
      exact ih seen ev (fun x hx => h x (List.mem_cons_of_mem _ hx))
    · have hpred : pred m = false := h m (List.mem_cons_self _ _)
      have hstep : scanRound pred (m :: rest) seen ev
          = scanRound pred rest (m.id :: seen) (ev ++ [m]) := by
        simp [scanRound, hmem, hpred]
      rw [hstep]
      exact ih _ _ (fun x hx => h x (List.mem_cons_of_mem _ hx))

theorem pollLoop_cleanRounds (env env2 : PollEnv) (pred : EmailMessage → Bool)
    (timeout interval : Nat) (h : ∀ i, env2.rounds i = cleanRound (env.rounds i)) :
    ∀ (fuel elapsed idx : Nat) (seen : List String) (ev : List EmailMessage),
    pollLoop env2 pred timeout interval fuel elapsed idx seen ev
      = pollLoop env pred timeout interval fuel elapsed idx seen ev := by
  intro fuel
  induction fuel with
  | zero => intro elapsed idx seen ev; rfl
  | succ fuel ih =>
    intro elapsed idx seen ev
    by_cases ht : timeout ≤ elapsed
    · simp only [pollLoop, if_pos ht]
    · cases hr : env.rounds idx with
      | error e =>
        have h2 : env2.rounds idx = .ok [] := by rw [h idx, hr]; rfl
        simp only [pollLoop, if_neg ht, hr, h2, scanRound]
        exact ih (elapsed + interval) (idx + 1) seen ev
      | ok msgs =>
        have h2 : env2.rounds idx = .ok msgs := by rw [h idx, hr]; rfl
        simp only [pollLoop, if_neg ht, hr, h2]
        cases hs : scanRound pred msgs seen ev with
        | found m seen2 ev2 => rfl
        | noMatch seen2 ev2 => exact ih (elapsed + interval) (idx + 1) seen2 ev2

theorem pollLoop_noMatchReturnsNone (env : PollEnv) (pred : EmailMessage → Bool)
    (timeout interval : Nat) (hi : 1 ≤ interval)
    (hnone : ∀ i msgs m, env.rounds i = .ok msgs → m ∈ msgs → pred m = false) :
    ∀ (fuel elapsed idx : Nat) (seen : List String) (ev : List EmailMessage),
    timeout ≤ elapsed + fuel →
    (pollLoop env pred timeout interval fuel elapsed idx seen ev).result = none
    ∧ timeout ≤ (pollLoop env pred timeout interval fuel elapsed idx seen ev).elapsed := by
  intro fuel
  induction fuel with
  | zero =>
    intro elapsed idx seen ev hf
    simp only [pollLoop]
    exact ⟨trivial, by omega⟩
  | succ fuel ih =>
    intro elapsed idx seen ev hf
    by_cases ht : timeout ≤ elapsed
    · simp only [pollLoop, if_pos ht]
      exact ⟨trivial, ht⟩
    · cases hr : env.rounds idx with
      | error e =>
        simp only [pollLoop, if_neg ht, hr]
        exact ih (elapsed + interval) (idx + 1) seen ev (by omega)
      | ok msgs =>
        obtain ⟨seen2, ev2, hs⟩ :=
          scanRound_allFalse pred msgs seen ev (fun m hm => hnone idx msgs m hr hm)
        simp only [pollLoop, if_neg ht, hr, hs]
        exact ih (elapsed + interval) (idx + 1) seen2 ev2 (by omega)

theorem pollLoop_sleepAccounting (env : PollEnv) (pred : EmailMessage → Bool)
    (timeout interval : Nat) :
    ∀ (fuel elapsed idx : Nat) (seen : List String) (ev : List EmailMessage),
    elapsed = idx * interval →
    (pollLoop env pred timeout interval fuel elapsed idx seen ev).elapsed
      = (pollLoop env pred timeout interval fuel elapsed idx seen ev).executed * interval := by
  intro fuel
  induction fuel with
  | zero => intro elapsed idx seen ev he; simp only [pollLoop]; exact he
  | succ fuel ih =>
    intro elapsed idx seen ev he
    by_cases ht : timeout ≤ elapsed
    · simp only [pollLoop, if_pos ht]
      exact he
    · cases hr : env.rounds idx with
      | error e =>
        simp only [pollLoop, if_neg ht, hr]
        exact ih (elapsed + interval) (idx + 1) seen ev (by rw [he]; ring)
      | ok msgs =>
        cases hs : scanRound pred msgs seen ev with
        | found m seen2 ev2 =>
          simp only [pollLoop, if_neg ht, hr, hs]
          exact he
        | noMatch seen2 ev2 =>
          simp only [pollLoop, if_neg ht, hr, hs]
          exact ih (elapsed + interval) (idx + 1) seen2 ev2 (by rw [he]; ring)

/-- C6: (1) replacing every raised listing call by an empty listing does not
change the poller's behaviour — a listing error is non-fatal and acts as "no
new messages this round"; (2) when no listed message ever matches, the
poller returns the no-match sentinel `none` after the wall-clock timeout has
elapsed; (3) the elapsed time always equals (completed rounds) × interval —
the poller sleeps the interval after every round, errors included. -/
theorem c6_poller_error_tolerant :
    (∀ (env env2 : PollEnv) (pats wl : List String) (timeout interval : Nat),
       (∀ i, env2.rounds i = cleanRound (env.rounds i)) →
       wait_for_verification_email env2 pats wl timeout interval
         = wait_for_verification_email env pats wl timeout interval)
    ∧ (∀ (env : PollEnv) (pats wl : List String) (timeout interval : Nat),
       1 ≤ interval →
       (∀ i msgs m, env.rounds i = .ok msgs → m ∈ msgs →
          is_verification_email pats wl m = false) →
       (wait_for_verification_email env pats wl timeout interval).result = none
       ∧ timeout ≤ (wait_for_verification_email env pats wl timeout interval).elapsed)
    ∧ (∀ (env : PollEnv) (pats wl : List String) (timeout interval : Nat),
       (wait_for_verification_email env pats wl timeout interval).elapsed
         = (wait_for_verification_email env pats wl timeout interval).executed * interval) := by
  refine ⟨?_, ?_, ?_⟩
  · intro env env2 pats wl timeout interval h
    unfold wait_for_verification_email
    exact pollLoop_cleanRounds env env2 _ timeout interval h (timeout + 1) 0 0 [] []
  · intro env pats wl timeout interval hi hnone
    unfold wait_for_verification_email
    exact pollLoop_noMatchReturnsNone env _ timeout interval hi hnone (timeout + 1) 0 0 [] []
      (by omega)
  · intro env pats wl timeout interval
    unfold wait_for_verification_email
    exact pollLoop_sleepAccounting env _ timeout interval (timeout + 1) 0 0 [] [] (by simp)

theorem c6_poller_error_tolerant_witness :
    (wait_for_verification_email emptyEnv DEFAULT_SUBJECT_PATTERNS VERIFICATION_SENDERS 4 2
       = wait_for_verification_email errEnv DEFAULT_SUBJECT_PATTERNS VERIFICATION_SENDERS 4 2)
    ∧ ((wait_for_verification_email errEnv DEFAULT_SUBJECT_PATTERNS VERIFICATION_SENDERS
          4 2).result = none
       ∧ 4 ≤ (wait_for_verification_email errEnv DEFAULT_SUBJECT_PATTERNS
          VERIFICATION_SENDERS 4 2).elapsed)
    ∧ (wait_for_verification_email errEnv DEFAULT_SUBJECT_PATTERNS VERIFICATION_SENDERS
          4 2).elapsed
        = (wait_for_verification_email errEnv DEFAULT_SUBJECT_PATTERNS VERIFICATION_SENDERS
          4 2).executed * 2 :=
  ⟨c6_poller_error_tolerant.1 errEnv emptyEnv DEFAULT_SUBJECT_PATTERNS VERIFICATION_SENDERS
     4 2 (by intro i; by_cases h : i = 0 <;> simp [errEnv, emptyEnv, cleanRound, h]),
   c6_poller_error_tolerant.2.1 errEnv DEFAULT_SUBJECT_PATTERNS VERIFICATION_SENDERS 4 2
     (by omega)
     (by
       intro i msgs m h hm
       by_cases h0 : i = 0
       · rw [h0] at h; simp [errEnv] at h
       · simp [errEnv, h0] at h
         subst h
         simp at hm),
   c6_poller_error_tolerant.2.2 errEnv DEFAULT_SUBJECT_PATTERNS VERIFICATION_SENDERS 4 2⟩

/-- C10: `list_messages` returns the parsed provider entries sorted by their
`created_at` value in descending order (a permutation of the parsed list),
regardless of the provider's listing order. -/
theorem c10_list_messages_sorted_desc (members : List RawMember) :
    List.Sorted createdDesc (list_messages members)
    ∧ List.Perm (list_messages members) (members.map parseMember) :=
  ⟨List.sorted_insertionSort createdDesc (members.map parseMember),
   List.perm_insertionSort createdDesc (members.map parseMember)⟩

end DuckMail

namespace LockModel

theorem stepInvAux :
    ∀ (s : Sys) (mv : Tid × Act),
    (stepMove s mv).all (fun s2 => decide (SysInv s → SysInv s2)) = true := by decide

theorem stepShapeAux :
    ∀ (s : Sys) (mv : Tid × Act),
    (stepMove s mv).all (fun s2 =>
      decide (isRel mv = false → SysInv s → RelFreeShape s → RelFreeShape s2)) = true := by
  decide

theorem stepPresAux :
    ∀ (s : Sys) (mv : Tid × Act) (i : Tid),
    (stepMove s mv).all (fun s2 =>
      decide ((doneB (tOf s i) = true → tOf s2 i = tOf s i)
        ∧ (tOf s i ≠ .start → tOf s2 i ≠ .start)
        ∧ (activeB (tOf s i) = true →
             activeB (tOf s2 i) = true ∨ finishedB (tOf s2 i) = true)
        ∧ (mv = (i, .acquire) → tOf s2 i ≠ .start))) = true := by decide

end LockModel
namespace LockModel

theorem stepMove_preserves_inv (s : Sys) (mv : Tid × Act) (s2 : Sys)
    (h : stepMove s mv = some s2) (hi : SysInv s) : SysInv s2 := by
  have haux := stepInvAux s mv
  rw [h] at haux
  simp only [Option.all_some] at haux
  exact of_decide_eq_true haux hi

theorem stepMove_shape (s : Sys) (mv : Tid × Act) (s2 : Sys)
    (h : stepMove s mv = some s2) (hr : isRel mv = false) (hi : SysInv s)
    (hs : RelFreeShape s) : RelFreeShape s2 := by
  have haux := stepShapeAux s mv
  rw [h] at haux
  simp only [Option.all_some] at haux
  exact of_decide_eq_true haux hr hi hs

theorem stepMove_pres (s : Sys) (mv : Tid × Act) (s2 : Sys) (i : Tid)
    (h : stepMove s mv = some s2) :
    (doneB (tOf s i) = true → tOf s2 i = tOf s i)
    ∧ (tOf s i ≠ .start → tOf s2 i ≠ .start)
    ∧ (activeB (tOf s i) = true →
         activeB (tOf s2 i) = true ∨ finishedB (tOf s2 i) = true)
    ∧ (mv = (i, .acquire) → tOf s2 i ≠ .start) := by
  have haux := stepPresAux s mv i
  rw [h] at haux
  simp only [Option.all_some] at haux
  exact of_decide_eq_true haux

theorem runTrace_inv :
    ∀ (moves : List (Tid × Act)) (s s2 : Sys),
    runTrace s moves = some s2 → SysInv s → SysInv s2 := by
  intro moves
  induction moves with
  | nil =>
    intro s s2 h hi
    simp only [runTrace, Option.some.injEq] at h
    exact h ▸ hi
  | cons mv rest ih =>
    intro s s2 h hi
    simp only [runTrace] at h
    cases hstep : stepMove s mv with
    | none => rw [hstep] at h; simp at h
    | some smid =>
      rw [hstep] at h
      exact ih smid s2 h (stepMove_preserves_inv s mv smid hstep hi)

theorem runTrace_shape :
    ∀ (moves : List (Tid × Act)) (s s2 : Sys),
    runTrace s moves = some s2 → (∀ mv ∈ moves, isRel mv = false) →
    SysInv s → RelFreeShape s → RelFreeShape s2 := by
  intro moves
  induction moves with
  | nil =>
    intro s s2 h _ _ hs
    simp only [runTrace, Option.some.injEq] at h
    exact h ▸ hs
  | cons mv rest ih =>
    intro s s2 h hrel hi hs
    simp only [runTrace] at h
    cases hstep : stepMove s mv with
    | none => rw [hstep] at h; simp at h
    | some smid =>
      rw [hstep] at h
      exact ih smid s2 h (fun x hx => hrel x (List.mem_cons_of_mem _ hx))
        (stepMove_preserves_inv s mv smid hstep hi)
        (stepMove_shape s mv smid hstep (hrel mv (List.mem_cons_self _ _)) hi hs)

theorem runTrace_done_pres :
    ∀ (moves : List (Tid × Act)) (s s2 : Sys) (i : Tid),
    runTrace s moves = some s2 → doneB (tOf s i) = true → tOf s2 i = tOf s i := by
  intro moves
  induction moves with
  | nil =>
    intro s s2 i h _
    simp only [runTrace, Option.some.injEq] at h
    exact h ▸ rfl
  | cons mv rest ih =>
    intro s s2 i h hd
    simp only [runTrace] at h
    cases hstep : stepMove s mv with
    | none => rw [hstep] at h; simp at h
    | some smid =>
      rw [hstep] at h
      have heq := (stepMove_pres s mv smid i hstep).1 hd
      rw [ih smid s2 i h (heq ▸ hd), heq]

theorem runTrace_notStart :
    ∀ (moves : List (Tid × Act)) (s s2 : Sys) (i : Tid),
    runTrace s moves = some s2 → tOf s i ≠ .start → tOf s2 i ≠ .start := by
  intro moves
  induction moves with
  | nil =>
    intro s s2 i h hn
    simp only [runTrace, Option.some.injEq] at h
    exact h ▸ hn
  | cons mv rest ih =>
    intro s s2 i h hn
    simp only [runTrace] at h
    cases hstep : stepMove s mv with
    | none => rw [hstep] at h; simp at h
    | some smid =>
      rw [hstep] at h
      exact ih smid s2 i h ((stepMove_pres s mv smid i hstep).2.1 hn)

theorem runTrace_active :
    ∀ (moves : List (Tid × Act)) (s s2 : Sys) (i : Tid),
    runTrace s moves = some s2 → activeB (tOf s i) = true →
    activeB (tOf s2 i) = true ∨ finishedB (tOf s2 i) = true := by
  intro moves
  induction moves with
  | nil =>
    intro s s2 i h ha
    simp only [runTrace, Option.some.injEq] at h
    exact Or.inl (h ▸ ha)
  | cons mv rest ih =>
    intro s s2 i h ha
    simp only [runTrace] at h
    cases hstep : stepMove s mv with
    | none => rw [hstep] at h; simp at h
    | some smid =>
      rw [hstep] at h
      rcases (stepMove_pres s mv smid i hstep).2.2.1 ha with h2 | h2
      · exact ih smid s2 i h h2
      · have hdone : doneB (tOf smid i) = true := by
          revert h2
          cases tOf smid i <;> simp [finishedB, doneB]
        right
        rw [runTrace_done_pres rest smid s2 i h hdone]
        exact h2

theorem runTrace_acq_notStart :
    ∀ (moves : List (Tid × Act)) (s s2 : Sys) (i : Tid),
    runTrace s moves = some s2 → (i, Act.acquire) ∈ moves → tOf s2 i ≠ .start := by
  intro moves
  induction moves with
  | nil =>
    intro s s2 i _ hm
    simp at hm
  | cons mv rest ih =>
    intro s s2 i h hm
    simp only [runTrace] at h
    cases hstep : stepMove s mv with
    | none => rw [hstep] at h; simp at h
    | some smid =>
      rw [hstep] at h
      rcases List.mem_cons.mp hm with heq | hmem
      · exact runTrace_notStart rest smid s2 i h
          ((stepMove_pres s mv smid i hstep).2.2.2 heq.symm)
      · exact ih smid s2 i h hmem

theorem runTrace_append :
    ∀ (l1 l2 : List (Tid × Act)) (s s2 : Sys),
    runTrace s (l1 ++ l2) = some s2 →
    ∃ smid, runTrace s l1 = some smid ∧ runTrace smid l2 = some s2 := by
  intro l1
  induction l1 with
  | nil =>
    intro l2 s s2 h
    exact ⟨s, rfl, h⟩
  | cons mv rest ih =>
    intro l2 s s2 h
    simp only [List.cons_append, runTrace] at h ⊢
    cases hstep : stepMove s mv with
    | none => rw [hstep] at h; simp at h
    | some smid =>
      rw [hstep] at h
      exact ih l2 smid s2 h

end LockModel
namespace LockModel

/-- C7: (1) every reachable system state satisfies the invariant — the
permit is held exactly while one thread is between its successful
non-blocking acquire and its release, at most one thread holds it, and at
most one thread was rejected busy; (2) a thread's acquire attempt is always
enabled and resolves immediately into holding or an immediate busy
rejection — never queued or blocked; (3) when both requests arrive
concurrently (both acquire attempts precede any release) and both finish,
exactly one proceeds to completion of its run and the other is the
busy-rejected one; (4) whenever both threads are done, the permit has been
released — release happens on every exit path of the proceeding run,
whether its body returned or raised. -/
theorem c7_run_exclusivity :
    (∀ (moves : List (Tid × Act)) (s2 : Sys),
       runTrace initSys moves = some s2 → SysInv s2)
    ∧ (∀ (s : Sys) (i : Tid), tOf s i = .start →
       ∃ s2, stepMove s (i, .acquire) = some s2
         ∧ (tOf s2 i = .holding ∨ tOf s2 i = .doneBusy))
    ∧ (∀ (l1 l2 : List (Tid × Act)) (s2 : Sys),
       runTrace initSys (l1 ++ l2) = some s2 →
       (Tid.a, Act.acquire) ∈ l1 → (Tid.b, Act.acquire) ∈ l1 →
       (∀ mv ∈ l1, isRel mv = false) →
       doneB s2.t1 = true → doneB s2.t2 = true →
       (s2.t1 = .doneBusy ∧ ∃ ok, s2.t2 = .doneRun ok)
       ∨ (s2.t2 = .doneBusy ∧ ∃ ok, s2.t1 = .doneRun ok))
    ∧ (∀ (moves : List (Tid × Act)) (s2 : Sys),
       runTrace initSys moves = some s2 →
       doneB s2.t1 = true → doneB s2.t2 = true → s2.lock = false) := by
  have hfact1 : ∀ t : TState, activeB t = true → doneB t = false := by decide
  have hfact2 : ∀ t : TState, finishedB t = true → ∃ ok, t = TState.doneRun ok := by decide
  have hfact3 : ∀ s : Sys, SysInv s → doneB s.t1 = true → doneB s.t2 = true →
      s.lock = false := by decide
  refine ⟨?_, ?_, ?_, ?_⟩
  · intro moves s2 h
    exact runTrace_inv moves initSys s2 h (by decide)
  · intro s i hstart
    unfold stepMove
    rw [hstart]
    cases hl : s.lock
    · refine ⟨setT { s with lock := true } i .holding, ?_, Or.inl ?_⟩
      · simp
      · cases i <;> rfl
    · refine ⟨setT s i .doneBusy, ?_, Or.inr ?_⟩
      · simp
      · cases i <;> rfl
  · intro l1 l2 s2 htr ha hb hrel hd1 hd2
    obtain ⟨smid, h1, h2⟩ := runTrace_append l1 l2 initSys s2 htr
    have hshape : RelFreeShape smid :=
      runTrace_shape l1 initSys smid h1 hrel (by decide) (by decide)
    have hna : smid.t1 ≠ .start := runTrace_acq_notStart l1 initSys smid Tid.a h1 ha
    have hnb : smid.t2 ≠ .start := runTrace_acq_notStart l1 initSys smid Tid.b h1 hb
    rcases hshape.2 with hstart | hcase | hcase
    · rcases hstart with h | h
      · exact absurd h hna
      · exact absurd h hnb
    · -- t1 active, t2 rejected busy
      right
      have ht2 : s2.t2 = .doneBusy := by
        have := runTrace_done_pres l2 smid s2 Tid.b h2 (by rw [show tOf smid Tid.b = smid.t2 from rfl, hcase.2]; rfl)
        rw [show tOf s2 Tid.b = s2.t2 from rfl] at this
        rw [this, show tOf smid Tid.b = smid.t2 from rfl, hcase.2]
      refine ⟨ht2, ?_⟩
      rcases runTrace_active l2 smid s2 Tid.a h2 hcase.1 with hact | hfin
      · rw [show tOf s2 Tid.a = s2.t1 from rfl] at hact
        rw [hfact1 s2.t1 hact] at hd1
        cases hd1
      · rw [show tOf s2 Tid.a = s2.t1 from rfl] at hfin
        exact hfact2 s2.t1 hfin
    · -- t2 active, t1 rejected busy
      left
      have ht1 : s2.t1 = .doneBusy := by
        have := runTrace_done_pres l2 smid s2 Tid.a h2 (by rw [show tOf smid Tid.a = smid.t1 from rfl, hcase.1]; rfl)
        rw [show tOf s2 Tid.a = s2.t1 from rfl] at this
        rw [this, show tOf smid Tid.a = smid.t1 from rfl, hcase.1]
      refine ⟨ht1, ?_⟩
      rcases runTrace_active l2 smid s2 Tid.b h2 hcase.2 with hact | hfin
      · rw [show tOf s2 Tid.b = s2.t2 from rfl] at hact
        rw [hfact1 s2.t2 hact] at hd2
        cases hd2
      · rw [show tOf s2 Tid.b = s2.t2 from rfl] at hfin
        exact hfact2 s2.t2 hfin
  · intro moves s2 h hd1 hd2
    exact hfact3 s2 (runTrace_inv moves initSys s2 h (by decide)) hd1 hd2

theorem c7_run_exclusivity_witness :
    SysInv { lock := false, t1 := TState.doneRun true, t2 := TState.doneBusy }
    ∧ ((({ lock := false, t1 := TState.doneRun true, t2 := TState.doneBusy } : Sys).t1
          = TState.doneBusy
        ∧ ∃ ok, ({ lock := false, t1 := TState.doneRun true, t2 := TState.doneBusy } : Sys).t2
            = TState.doneRun ok)
       ∨ (({ lock := false, t1 := TState.doneRun true, t2 := TState.doneBusy } : Sys).t2
          = TState.doneBusy
        ∧ ∃ ok, ({ lock := false, t1 := TState.doneRun true, t2 := TState.doneBusy } : Sys).t1
            = TState.doneRun ok))
    ∧ ({ lock := false, t1 := TState.doneRun true, t2 := TState.doneBusy } : Sys).lock
        = false :=
  ⟨c7_run_exclusivity.1 [(Tid.a, Act.acquire), (Tid.b, Act.acquire), (Tid.a, Act.bodyDone true),
      (Tid.a, Act.release)] _ (by decide),
   c7_run_exclusivity.2.2.1 [(Tid.a, Act.acquire), (Tid.b, Act.acquire)]
      [(Tid.a, Act.bodyDone true), (Tid.a, Act.release)] _ (by decide) (by decide)
      (by decide) (by decide) (by decide) (by decide),
   c7_run_exclusivity.2.2.2 [(Tid.a, Act.acquire), (Tid.b, Act.acquire), (Tid.a, Act.bodyDone true),
      (Tid.a, Act.release)] _ (by decide) (by decide) (by decide)⟩

end LockModel
namespace AutoReg

theorem checkTimeout_ok (env : Env) (s : RunState)
    (h : env.clock s.ticks ≤ GLOBAL_TIMEOUT_SECONDS) :
    checkTimeout env s = .ok (afterCheck s) := by
  unfold checkTimeout
  rw [if_neg (by omega)]

theorem initDuckmail_ok (env : Env) (a : String) (h1 : env.createAccountAddr = some a)
    (h2 : a ≠ "") (h3 : env.tokenOk = true) (s : RunState) :
    initDuckmail env s = .ok (enterState .duckmailCreated { s with email := a }) := by
  unfold initDuckmail
  rw [h1]
  simp [h2, h3]

theorem openSiteLoginEntry_ok (env : Env) (h : env.openSiteOk = true) (s : RunState) :
    openSiteLoginEntry env s = .ok (enterState .loginEntry (enterState .siteOpened s)) := by
  unfold openSiteLoginEntry
  rw [h]
  rfl

theorem enterEmail_ok (env : Env) (h : env.enterEmailOk = true) (s : RunState) :
    enterEmail env s = .ok (enterState .emailEntered s) := by
  unfold enterEmail
  rw [h]
  rfl

theorem detectBranchLoop_succ (env : Env) (idx fuel : Nat) (s : RunState) :
    detectBranchLoop env idx (fuel + 1) s
      = seqStep (checkTimeout env s) (fun s1 =>
          if (env.branchObs idx).passwordVisible then .err (.emailExists s1.email) s1
          else if (env.branchObs idx).createKeyword then .ok (enterState .branchDetected s1)
          else if (env.branchObs idx).nameInputsVisible then
            .ok (enterState .branchDetected s1)
          else detectBranchLoop env (idx + 1) fuel s1) := rfl

theorem findNameLoop_succ (env : Env) (idx fuel : Nat) (s : RunState) :
    findNameLoop env idx (fuel + 1) s
      = seqStep (checkTimeout env s) (fun s1 =>
          if env.nameInputsFound idx then .ok s1
          else findNameLoop env (idx + 1) fuel s1) := rfl

theorem waitEmailLoop_succ (env : Env) (idx fuel : Nat) (seen : List String)
    (s : RunState) :
    waitEmailLoop env idx (fuel + 1) seen s
      = (match checkTimeout env s with
         | .err e s1 => .err e s1
         | .ok s1 =>
           match env.pollRounds idx with
           | .error _ => waitEmailLoop env (idx + 1) fuel seen s1
           | .ok msgs =>
             match scanMsgs env msgs seen with
             | .gotLink link _ => .ok link s1
             | .fail seen2 => waitEmailLoop env (idx + 1) fuel seen2 s1) := rfl

theorem scanMsgs_hit (env : Env) (m : DuckMail.EmailMessage)
    (h1 : DuckMail.isVerificationEmailDefault m = true)
    (dtl : DuckMail.EmailDetail) (link : String)
    (h2 : env.messageDetail m.id = some dtl)
    (h3 : DuckMail.extract_confirmation_link dtl = some link) (h4 : link ≠ "") :
    scanMsgs env [m] [] = .gotLink link [m.id] := by
  simp [scanMsgs, h1, h2, h3, h4]

/-- C1 (code bug): the claim says a healthy run reaches COMPLETE and returns
the credentials — but for every valid request and every environment in which
the mailbox provider, target site and browser behave as expected at every
step, `execute()` proceeds through all states up to VERIFY_LOGIN and then
raises `NameError` (autoregister.py:1006 references the undefined name
`Config`), so the run ends in FAILED with a wrapped 500 error and COMPLETE
is never entered. -/
theorem c1_healthy_run_hits_nameerror (env : Env) (req : AutoRegisterRequest) (a : String)
    (m : DuckMail.EmailMessage) (dtl : DuckMail.EmailDetail) (link : String)
    (h1 : env.createAccountAddr = some a) (h2 : a ≠ "") (h3 : env.tokenOk = true)
    (h4 : env.openSiteOk = true) (h5 : env.enterEmailOk = true)
    (h6 : env.branchObs 0 = ⟨false, true, false⟩)
    (h7 : env.nameInputsFound 0 = true) (h8 : env.formContinueOk = true)
    (h9 : env.pollRounds 0 = .ok [m])
    (h10 : DuckMail.isVerificationEmailDefault m = true)
    (h11 : env.messageDetail m.id = some dtl)
    (h12 : DuckMail.extract_confirmation_link dtl = some link) (h13 : link ≠ "")
    (h14 : env.passwordPageOk = true)
    (hclk : ∀ t, env.clock t ≤ GLOBAL_TIMEOUT_SECONDS) :
    (executeRun env req).1 = some (.autoRegister NAME_ERROR_MSG 500 .failed)
    ∧ (executeRun env req).2.state = .failed
    ∧ RunEvent.enter .verifyLogin ∈ (executeRun env req).2.log
    ∧ RunEvent.enter .complete ∉ (executeRun env req).2.log := by
  unfold executeRun executeCore
  rw [initDuckmail_ok env a h1 h2 h3]
  simp only [seqStep]
  rw [checkTimeout_ok env _ (hclk _)]
  simp only [seqStep]
  rw [openSiteLoginEntry_ok env h4]
  simp only [seqStep]
  rw [checkTimeout_ok env _ (hclk _)]
  simp only [seqStep]
  rw [enterEmail_ok env h5]
  simp only [seqStep]
  rw [checkTimeout_ok env _ (hclk _)]
  simp only [seqStep]
  unfold detectBranch
  rw [show (10 : Nat) = 9 + 1 from rfl, detectBranchLoop_succ]
  rw [checkTimeout_ok env _ (hclk _)]
  simp only [seqStep, h6]
  simp only [Bool.false_eq_true, if_false, if_true]
  rw [checkTimeout_ok env _ (hclk _)]
  simp only [seqStep]
  unfold fillRegisterForm
  rw [show (10 : Nat) = 9 + 1 from rfl, findNameLoop_succ]
  rw [checkTimeout_ok env _ (hclk _)]
  simp only [seqStep, h7, if_true]
  simp only [h8, if_true]
  rw [checkTimeout_ok env _ (hclk _)]
  simp only [seqStep]
  unfold waitForConfirmationLink
  rw [show (40 : Nat) = 39 + 1 from rfl, waitEmailLoop_succ]
  rw [checkTimeout_ok env _ (hclk _)]
  simp only [h9, scanMsgs_hit env m h10 dtl link h11 h12 h13]
  rw [checkTimeout_ok env _ (hclk _)]
  simp only [seqStep]
  unfold setPasswordStep
  simp only [h14, if_true]
  unfold verifyLoginStep
  simp [enterState, afterCheck, initialRunState]

end AutoReg
namespace AutoReg

theorem detectBranchLoop_password (env : Env)
    (hclk : ∀ t, env.clock t ≤ GLOBAL_TIMEOUT_SECONDS) :
    ∀ (i idx fuel : Nat) (s : RunState), i < fuel →
    (∀ j, j < i → env.branchObs (idx + j) = ⟨false, false, false⟩) →
    (env.branchObs (idx + i)).passwordVisible = true →
    ∃ s2, detectBranchLoop env idx fuel s = .err (.emailExists s.email) s2
      ∧ s2.email = s.email
      ∧ ∃ ext, s2.log = s.log ++ ext ∧ ∀ e ∈ ext, isTCheck e = true := by
  intro i
  induction i with
  | zero =>
    intro idx fuel s hfuel hprev hpw
    cases fuel with
    | zero => omega
    | succ f =>
      rw [detectBranchLoop_succ, checkTimeout_ok env s (hclk _)]
      simp only [seqStep]
      rw [Nat.add_zero] at hpw
      rw [hpw]
      simp only [if_true]
      refine ⟨afterCheck s, rfl, rfl, [RunEvent.tcheck s.state], rfl, ?_⟩
      intro e he
      simp at he
      rw [he]
      rfl
  | succ i ih =>
    intro idx fuel s hfuel hprev hpw
    cases fuel with
    | zero => omega
    | succ f =>
      rw [detectBranchLoop_succ, checkTimeout_ok env s (hclk _)]
      simp only [seqStep]
      have h0 : env.branchObs idx = ⟨false, false, false⟩ := by
        have h := hprev 0 (by omega)
        rw [Nat.add_zero] at h
        exact h
      rw [h0]
      simp only [Bool.false_eq_true, if_false]
      obtain ⟨s2, heq, hemail, ext, hlog, hext⟩ := ih (idx + 1) f (afterCheck s) (by omega)
        (fun j hj => by
          have h := hprev (j + 1) (by omega)
          rw [show idx + (j + 1) = idx + 1 + j from by omega] at h
          exact h)
        (by rw [show idx + 1 + i = idx + (i + 1) from by omega]; exact hpw)
      refine ⟨s2, heq, hemail, RunEvent.tcheck s.state :: ext, ?_, ?_⟩
      · rw [hlog]
        simp [afterCheck]
      · intro e he
        rcases List.mem_cons.mp he with h | h
        · rw [h]; rfl
        · exact hext e h

/-- C4: when the run reaches branch detection (collaborators healthy up to
email entry, clock within budget) and a visible password input is the first
signal observed, at whichever polling attempt `i < 10`, the run terminates
with the distinct `EmailExistsException` (HTTP-409-equivalent) carrying the
submitted mailbox address, and the REGISTER_FORM state is never entered. -/
theorem c4_password_visible_email_exists (env : Env) (req : AutoRegisterRequest) (a : String) (i : Nat)
    (h1 : env.createAccountAddr = some a) (h2 : a ≠ "") (h3 : env.tokenOk = true)
    (h4 : env.openSiteOk = true) (h5 : env.enterEmailOk = true)
    (hclk : ∀ t, env.clock t ≤ GLOBAL_TIMEOUT_SECONDS)
    (hprev : ∀ j, j < i → env.branchObs j = ⟨false, false, false⟩)
    (hpw : (env.branchObs i).passwordVisible = true)
    (hi : i < 10) :
    (executeRun env req).1 = some (.emailExists a)
    ∧ RunError.code (.emailExists a) = 409
    ∧ (executeRun env req).2.state = .failed
    ∧ RunEvent.enter .registerForm ∉ (executeRun env req).2.log := by
  unfold executeRun executeCore
  rw [initDuckmail_ok env a h1 h2 h3]
  simp only [seqStep]
  rw [checkTimeout_ok env _ (hclk _)]
  simp only [seqStep]
  rw [openSiteLoginEntry_ok env h4]
  simp only [seqStep]
  rw [checkTimeout_ok env _ (hclk _)]
  simp only [seqStep]
  rw [enterEmail_ok env h5]
  simp only [seqStep]
  rw [checkTimeout_ok env _ (hclk _)]
  simp only [seqStep]
  unfold detectBranch
  obtain ⟨s2, heq, hemail, ext, hlog, hext⟩ :=
    detectBranchLoop_password env hclk i 0 10 _ hi
      (by intro j hj; rw [Nat.zero_add]; exact hprev j hj)
      (by rw [Nat.zero_add]; exact hpw)
  rw [heq]
  simp only [seqStep]
  refine ⟨?_, rfl, rfl, ?_⟩
  · simp [enterState, afterCheck, initialRunState]
  · simp only [enterState, List.mem_append]
    intro hmem
    rcases hmem with hmem | hmem
    · rw [hlog] at hmem
      rcases List.mem_append.mp hmem with hmem | hmem
      · simp [afterCheck, enterState, initialRunState] at hmem
      · have := hext _ hmem
        simp [isTCheck] at this
    · simp at hmem
end AutoReg
namespace AutoReg

theorem c1_healthy_run_hits_nameerror_witness :
    (executeRun healthyEnv witReq).1 = some (.autoRegister NAME_ERROR_MSG 500 .failed)
    ∧ (executeRun healthyEnv witReq).2.state = .failed
    ∧ RunEvent.enter .verifyLogin ∈ (executeRun healthyEnv witReq).2.log
    ∧ RunEvent.enter .complete ∉ (executeRun healthyEnv witReq).2.log :=
  c1_healthy_run_hits_nameerror healthyEnv witReq "test123@duckmail.sbs" witMsg witDetail
    "https://chayns.cc/login1?code=abc"
    rfl (by decide) rfl rfl rfl rfl rfl rfl rfl (by decide) rfl (by decide) (by decide)
    rfl (fun t => by show (0 : Nat) ≤ GLOBAL_TIMEOUT_SECONDS; decide)

theorem c4_password_visible_email_exists_witness :
    (executeRun existsEnv witReq).1
      = some (.emailExists "test123@duckmail.sbs")
    ∧ RunError.code (.emailExists "test123@duckmail.sbs") = 409
    ∧ (executeRun existsEnv witReq).2.state = .failed
    ∧ RunEvent.enter .registerForm ∉ (executeRun existsEnv witReq).2.log :=
  c4_password_visible_email_exists existsEnv witReq "test123@duckmail.sbs" 0
    rfl (by decide) rfl rfl rfl
    (fun t => by show (0 : Nat) ≤ GLOBAL_TIMEOUT_SECONDS; decide)
    (fun j hj => absurd hj (by omega))
    rfl (by omega)

end AutoReg
namespace AutoReg

theorem countTChecks_append (l1 l2 : List RunEvent) :
    countTChecks (l1 ++ l2) = countTChecks l1 + countTChecks l2 := by
  simp [countTChecks, List.filter_append]

theorem ExtOk.weaken {s t : RunState} {n m : Nat} (h : ExtOk s t n) (hm : m ≤ n) :
    ExtOk s t m := by
  obtain ⟨ext, h1, h2, h3⟩ := h
  exact ⟨ext, h1, h2, le_trans hm h3⟩

theorem ExtOk.trans {s t u : RunState} {n m : Nat}
    (h1 : ExtOk s t n) (h2 : ExtOk t u m) : ExtOk s u (n + m) := by
  obtain ⟨e1, he1, hsp1, hc1⟩ := h1
  obtain ⟨e2, he2, hsp2, hc2⟩ := h2
  refine ⟨e1 ++ e2, ?_, ?_, ?_⟩
  · rw [he2, he1, List.append_assoc]
  · intro hmem
    rcases List.mem_append.mp hmem with h | h
    · exact hsp1 h
    · exact hsp2 h
  · rw [countTChecks_append]
    omega

theorem ExtOk.refl (s : RunState) : ExtOk s s 0 :=
  ⟨[], by simp, by simp, by simp [countTChecks]⟩

theorem ext_enter (st : RegisterState) (h : st ≠ RegisterState.setPassword)
    (s : RunState) : ExtOk s (enterState st s) 0 := by
  refine ⟨[RunEvent.enter st], rfl, ?_, by simp⟩
  intro hmem
  simp at hmem
  exact h hmem.symm

theorem ext_afterCheck (s : RunState) : ExtOk s (afterCheck s) 1 := by
  refine ⟨[RunEvent.tcheck s.state], rfl, by simp, ?_⟩
  simp [countTChecks, List.filter, isTCheck]

theorem ext_checkTimeout (env : Env) (s : RunState) :
    ExtOk s (stateOf (checkTimeout env s)) 1 := by
  unfold checkTimeout
  split
  · exact ext_afterCheck s
  · exact ext_afterCheck s

theorem ext_initDuckmail (env : Env) (s : RunState) :
    ExtOk s (stateOf (initDuckmail env s)) 0 := by
  unfold initDuckmail
  cases env.createAccountAddr with
  | none => exact ExtOk.refl s
  | some addr =>
    dsimp only
    split
    · exact ExtOk.refl s
    · split
      · exact ext_enter RegisterState.duckmailCreated (by simp) { s with email := addr }
      · exact ExtOk.refl s

theorem ext_openSiteLoginEntry (env : Env) (s : RunState) :
    ExtOk s (stateOf (openSiteLoginEntry env s)) 0 := by
  unfold openSiteLoginEntry
  split
  · have h1 := ext_enter RegisterState.siteOpened (by simp) s
    have h2 := ext_enter RegisterState.loginEntry (by simp)
      (enterState .siteOpened s)
    exact (h1.trans h2).weaken (by omega)
  · exact ExtOk.refl s

theorem ext_enterEmail (env : Env) (s : RunState) :
    ExtOk s (stateOf (enterEmail env s)) 0 := by
  unfold enterEmail
  split
  · exact ext_enter RegisterState.emailEntered (by simp) s
  · exact ExtOk.refl s

theorem ext_detectBranchLoop (env : Env) :
    ∀ (fuel idx : Nat) (s : RunState),
    ExtOk s (stateOf (detectBranchLoop env idx fuel s)) 0
    ∧ ∀ s2, detectBranchLoop env idx fuel s = .ok s2 → ExtOk s s2 1 := by
  intro fuel
  induction fuel with
  | zero =>
    intro idx s
    constructor
    · exact ExtOk.refl s
    · intro s2 h
      simp [detectBranchLoop] at h
  | succ fuel ih =>
    intro idx s
    rw [detectBranchLoop_succ]
    cases hck : checkTimeout env s with
    | err e s1 =>
      have hE : ExtOk s s1 1 := by
        have h := ext_checkTimeout env s
        rw [hck] at h
        exact h
      constructor
      · exact (hE.weaken (by omega))
      · intro s2 h
        simp [seqStep] at h
    | ok s1 =>
      have hE : ExtOk s s1 1 := by
        have h := ext_checkTimeout env s
        rw [hck] at h
        exact h
      simp only [seqStep]
      by_cases hpw : (env.branchObs idx).passwordVisible = true
      · rw [if_pos hpw]
        exact ⟨hE.weaken (by omega), by intro s2 h; simp at h⟩
      · rw [if_neg hpw]
        by_cases hkw : (env.branchObs idx).createKeyword = true
        · rw [if_pos hkw]
          have hB := ext_enter RegisterState.branchDetected (by simp) s1
          exact ⟨(hE.trans hB).weaken (by omega),
            by
              intro s2 h
              simp only [StepOut.ok.injEq] at h
              exact h ▸ (hE.trans hB)⟩
        · rw [if_neg hkw]
          by_cases hnm : (env.branchObs idx).nameInputsVisible = true
          · rw [if_pos hnm]
            have hB := ext_enter RegisterState.branchDetected (by simp) s1
            exact ⟨(hE.trans hB).weaken (by omega),
              by
                intro s2 h
                simp only [StepOut.ok.injEq] at h
                exact h ▸ (hE.trans hB)⟩
          · rw [if_neg hnm]
            obtain ⟨ihA, ihB⟩ := ih (idx + 1) s1
            constructor
            · exact (hE.trans ihA).weaken (by omega)
            · intro s2 h
              exact (hE.trans (ihB s2 h)).weaken (by omega)

theorem ext_findNameLoop (env : Env) :
    ∀ (fuel idx : Nat) (s : RunState),
    ExtOk s (stateOf (findNameLoop env idx fuel s)) 0
    ∧ ∀ s2, findNameLoop env idx fuel s = .ok s2 → ExtOk s s2 1 := by
  intro fuel
  induction fuel with
  | zero =>
    intro idx s
    constructor
    · exact ExtOk.refl s
    · intro s2 h
      simp [findNameLoop] at h
  | succ fuel ih =>
    intro idx s
    rw [findNameLoop_succ]
    cases hck : checkTimeout env s with
    | err e s1 =>
      have hE : ExtOk s s1 1 := by
        have h := ext_checkTimeout env s
        rw [hck] at h
        exact h
      exact ⟨hE.weaken (by omega), by intro s2 h; simp [seqStep] at h⟩
    | ok s1 =>
      have hE : ExtOk s s1 1 := by
        have h := ext_checkTimeout env s
        rw [hck] at h
        exact h
      simp only [seqStep]
      by_cases hf : env.nameInputsFound idx = true
      · rw [if_pos hf]
        exact ⟨hE.weaken (by omega),
          by
            intro s2 h
            simp only [StepOut.ok.injEq] at h
            exact h ▸ hE⟩
      · rw [if_neg hf]
        obtain ⟨ihA, ihB⟩ := ih (idx + 1) s1
        exact ⟨(hE.trans ihA).weaken (by omega),
          fun s2 h => (hE.trans (ihB s2 h)).weaken (by omega)⟩

theorem ext_fillRegisterForm (env : Env) (s : RunState) :
    ExtOk s (stateOf (fillRegisterForm env s)) 0
    ∧ ∀ s2, fillRegisterForm env s = .ok s2 → ExtOk s s2 1 := by
  unfold fillRegisterForm
  have hRF := ext_enter RegisterState.registerForm (by simp) s
  cases hloop : findNameLoop env 0 10 (enterState .registerForm s) with
  | err e s1 =>
    have hL : ExtOk (enterState .registerForm s) s1 0 := by
      have h := (ext_findNameLoop env 10 0 (enterState .registerForm s)).1
      rw [hloop] at h
      exact h
    exact ⟨(hRF.trans hL).weaken (by omega), by intro s2 h; simp [seqStep] at h⟩
  | ok s1 =>
    have hL : ExtOk (enterState .registerForm s) s1 1 :=
      (ext_findNameLoop env 10 0 (enterState .registerForm s)).2 s1 hloop
    simp only [seqStep]
    by_cases hc : env.formContinueOk = true
    · rw [if_pos hc]
      exact ⟨(hRF.trans hL).weaken (by omega),
        by
          intro s2 h
          simp only [StepOut.ok.injEq] at h
          exact h ▸ ((hRF.trans hL).weaken (by omega))⟩
    · rw [if_neg hc]
      exact ⟨(hRF.trans hL).weaken (by omega), by intro s2 h; simp at h⟩

theorem ext_waitEmailLoop (env : Env) :
    ∀ (fuel idx : Nat) (seen : List String) (s : RunState),
    ExtOk s (linkStateOf (waitEmailLoop env idx fuel seen s)) 0
    ∧ ∀ link s2, waitEmailLoop env idx fuel seen s = .ok link s2 → ExtOk s s2 1 := by
  intro fuel
  induction fuel with
  | zero =>
    intro idx seen s
    constructor
    · exact ExtOk.refl s
    · intro link s2 h
      simp [waitEmailLoop] at h
  | succ fuel ih =>
    intro idx seen s
    rw [waitEmailLoop_succ]
    cases hck : checkTimeout env s with
    | err e s1 =>
      have hE : ExtOk s s1 1 := by
        have h := ext_checkTimeout env s
        rw [hck] at h
        exact h
      exact ⟨hE.weaken (by omega), by intro link s2 h; simp at h⟩
    | ok s1 =>
      have hE : ExtOk s s1 1 := by
        have h := ext_checkTimeout env s
        rw [hck] at h
        exact h
      dsimp only
      cases hr : env.pollRounds idx with
      | error e =>
        dsimp only
        obtain ⟨ihA, ihB⟩ := ih (idx + 1) seen s1
        exact ⟨(hE.trans ihA).weaken (by omega),
          fun link s2 h => (hE.trans (ihB link s2 h)).weaken (by omega)⟩
      | ok msgs =>
        dsimp only
        cases hs : scanMsgs env msgs seen with
        | gotLink link seen2 =>
          dsimp only
          exact ⟨hE.weaken (by omega),
            by
              intro link2 s2 h
              simp only [LinkOut.ok.injEq] at h
              exact h.2 ▸ hE⟩
        | fail seen2 =>
          dsimp only
          obtain ⟨ihA, ihB⟩ := ih (idx + 1) seen2 s1
          exact ⟨(hE.trans ihA).weaken (by omega),
            fun link s2 h => (hE.trans (ihB link s2 h)).weaken (by omega)⟩

theorem ext_waitForConfirmationLink (env : Env) (s : RunState) :
    ExtOk s (linkStateOf (waitForConfirmationLink env s)) 0
    ∧ ∀ link s2, waitForConfirmationLink env s = .ok link s2 → ExtOk s s2 1 := by
  unfold waitForConfirmationLink
  have hWE := ext_enter RegisterState.waitingEmail (by simp) s
  cases hloop : waitEmailLoop env 0 40 [] (enterState .waitingEmail s) with
  | err e s1 =>
    have hL : ExtOk (enterState .waitingEmail s) s1 0 := by
      have h := (ext_waitEmailLoop env 40 0 [] (enterState .waitingEmail s)).1
      rw [hloop] at h
      exact h
    exact ⟨(hWE.trans hL).weaken (by omega), by intro link s2 h; simp at h⟩
  | ok link s1 =>
    have hL : ExtOk (enterState .waitingEmail s) s1 1 :=
      (ext_waitEmailLoop env 40 0 [] (enterState .waitingEmail s)).2 link s1 hloop
    have hCL := ext_enter RegisterState.confirmationLink (by simp) s1
    dsimp only
    constructor
    · exact ((hWE.trans hL).trans hCL).weaken (by omega)
    · intro link2 s2 h
      simp only [LinkOut.ok.injEq] at h
      exact h.2 ▸ (((hWE.trans hL).trans hCL).weaken (by omega))

end AutoReg
namespace AutoReg

theorem ext_detectBranch (env : Env) (s : RunState) :
    ExtOk s (stateOf (detectBranch env s)) 0
    ∧ ∀ s2, detectBranch env s = .ok s2 → ExtOk s s2 1 :=
  ext_detectBranchLoop env 10 0 s

theorem shape_err_exit {s : RunState} {n : Nat} (h : ExtOk initialRunState s n) :
    ∃ A B, s.log = A ++ B
      ∧ RunEvent.enter RegisterState.setPassword ∉ A
      ∧ (∀ st, RunEvent.tcheck st ∉ B)
      ∧ (RunEvent.enter RegisterState.setPassword ∈ B → 9 ≤ countTChecks A) := by
  obtain ⟨ext, hlog, hsp, _⟩ := h
  refine ⟨s.log, [], by simp, ?_, by simp, by simp⟩
  rw [hlog]
  intro hmem
  simp only [initialRunState, List.nil_append] at hmem
  exact hsp hmem

theorem executeCore_shape (env : Env) :
    ∃ e s, executeCore env initialRunState = .err e s
      ∧ ∃ A B, s.log = A ++ B
        ∧ RunEvent.enter RegisterState.setPassword ∉ A
        ∧ (∀ st, RunEvent.tcheck st ∉ B)
        ∧ (RunEvent.enter RegisterState.setPassword ∈ B → 9 ≤ countTChecks A) := by
  unfold executeCore
  cases h1 : initDuckmail env initialRunState with
  | err e s =>
    have hE : ExtOk initialRunState s 0 := by
      have h := ext_initDuckmail env initialRunState
      rw [h1] at h
      exact h
    exact ⟨e, s, by simp [seqStep], shape_err_exit hE⟩
  | ok s1 =>
  have hA1 : ExtOk initialRunState s1 0 := by
    have h := ext_initDuckmail env initialRunState
    rw [h1] at h
    exact h
  simp only [seqStep]
  cases h2 : checkTimeout env s1 with
  | err e s =>
    have hE : ExtOk s1 s 1 := by
      have h := ext_checkTimeout env s1
      rw [h2] at h
      exact h
    exact ⟨e, s, by simp [seqStep], shape_err_exit (hA1.trans hE)⟩
  | ok s2 =>
  have hA2 : ExtOk initialRunState s2 1 := hA1.trans (by
    have h := ext_checkTimeout env s1
    rw [h2] at h
    exact h)
  simp only [seqStep]
  cases h3 : openSiteLoginEntry env s2 with
  | err e s =>
    have hE : ExtOk s2 s 0 := by
      have h := ext_openSiteLoginEntry env s2
      rw [h3] at h
      exact h
    exact ⟨e, s, by simp [seqStep], shape_err_exit (hA2.trans hE)⟩
  | ok s3 =>
  have hA3 : ExtOk initialRunState s3 1 := (hA2.trans (by
    have h := ext_openSiteLoginEntry env s2
    rw [h3] at h
    exact h))
  simp only [seqStep]
  cases h4 : checkTimeout env s3 with
  | err e s =>
    have hE : ExtOk s3 s 1 := by
      have h := ext_checkTimeout env s3
      rw [h4] at h
      exact h
    exact ⟨e, s, by simp [seqStep], shape_err_exit (hA3.trans hE)⟩
  | ok s4 =>
  have hA4 : ExtOk initialRunState s4 2 := hA3.trans (by
    have h := ext_checkTimeout env s3
    rw [h4] at h
    exact h)
  simp only [seqStep]
  cases h5 : enterEmail env s4 with
  | err e s =>
    have hE : ExtOk s4 s 0 := by
      have h := ext_enterEmail env s4
      rw [h5] at h
      exact h
    exact ⟨e, s, by simp [seqStep], shape_err_exit (hA4.trans hE)⟩
  | ok s5 =>
  have hA5 : ExtOk initialRunState s5 2 := hA4.trans (by
    have h := ext_enterEmail env s4
    rw [h5] at h
    exact h)
  simp only [seqStep]
  cases h6 : checkTimeout env s5 with
  | err e s =>
    have hE : ExtOk s5 s 1 := by
      have h := ext_checkTimeout env s5
      rw [h6] at h
      exact h
    exact ⟨e, s, by simp [seqStep], shape_err_exit (hA5.trans hE)⟩
  | ok s6 =>
  have hA6 : ExtOk initialRunState s6 3 := hA5.trans (by
    have h := ext_checkTimeout env s5
    rw [h6] at h
    exact h)
  simp only [seqStep]
  cases h7 : detectBranch env s6 with
  | err e s =>
    have hE : ExtOk s6 s 0 := by
      have h := (ext_detectBranch env s6).1
      rw [h7] at h
      exact h
    exact ⟨e, s, by simp [seqStep], shape_err_exit (hA6.trans hE)⟩
  | ok s7 =>
  have hA7 : ExtOk initialRunState s7 4 :=
    hA6.trans ((ext_detectBranch env s6).2 s7 h7)
  simp only [seqStep]
  cases h8 : checkTimeout env s7 with
  | err e s =>
    have hE : ExtOk s7 s 1 := by
      have h := ext_checkTimeout env s7
      rw [h8] at h
      exact h
    exact ⟨e, s, by simp [seqStep], shape_err_exit (hA7.trans hE)⟩
  | ok s8 =>
  have hA8 : ExtOk initialRunState s8 5 := hA7.trans (by
    have h := ext_checkTimeout env s7
    rw [h8] at h
    exact h)
  simp only [seqStep]
  cases h9 : fillRegisterForm env s8 with
  | err e s =>
    have hE : ExtOk s8 s 0 := by
      have h := (ext_fillRegisterForm env s8).1
      rw [h9] at h
      exact h
    exact ⟨e, s, by simp [seqStep], shape_err_exit (hA8.trans hE)⟩
  | ok s9 =>
  have hA9 : ExtOk initialRunState s9 6 :=
    hA8.trans ((ext_fillRegisterForm env s8).2 s9 h9)
  simp only [seqStep]
  cases h10 : checkTimeout env s9 with
  | err e s =>
    have hE : ExtOk s9 s 1 := by
      have h := ext_checkTimeout env s9
      rw [h10] at h
      exact h
    exact ⟨e, s, by simp [seqStep], shape_err_exit (hA9.trans hE)⟩
  | ok s10 =>
  have hA10 : ExtOk initialRunState s10 7 := hA9.trans (by
    have h := ext_checkTimeout env s9
    rw [h10] at h
    exact h)
  simp only [seqStep]
  cases h11 : waitForConfirmationLink env s10 with
  | err e s =>
    have hE : ExtOk s10 s 0 := by
      have h := (ext_waitForConfirmationLink env s10).1
      rw [h11] at h
      exact h
    exact ⟨e, s, by simp, shape_err_exit (hA10.trans hE)⟩
  | ok link s11 =>
  have hA11 : ExtOk initialRunState s11 8 :=
    hA10.trans ((ext_waitForConfirmationLink env s10).2 link s11 h11)
  dsimp only
  cases h12 : checkTimeout env s11 with
  | err e s =>
    have hE : ExtOk s11 s 1 := by
      have h := ext_checkTimeout env s11
      rw [h12] at h
      exact h
    exact ⟨e, s, by simp [seqStep], shape_err_exit (hA11.trans hE)⟩
  | ok s12 =>
  have hA12 : ExtOk initialRunState s12 9 := hA11.trans (by
    have h := ext_checkTimeout env s11
    rw [h12] at h
    exact h)
  simp only [seqStep]
  obtain ⟨ext, hlog, hsp, hcnt⟩ := hA12
  have hlog2 : s12.log = ext := by simpa [initialRunState] using hlog
  by_cases hpp : env.passwordPageOk = true
  · have hstep : setPasswordStep env s12 = .ok (enterState .setPassword s12) := by
      unfold setPasswordStep
      rw [if_pos hpp]
    rw [hstep]
    simp only [seqStep]
    unfold verifyLoginStep
    refine ⟨.pythonError NAME_ERROR_MSG, _, rfl, s12.log,
      [RunEvent.enter .setPassword, RunEvent.enter .verifyLogin], ?_, ?_, ?_, ?_⟩
    · simp [enterState]
    · intro hm
      exact hsp (hlog2 ▸ hm)
    · intro st
      simp
    · intro _
      rw [hlog2]
      exact hcnt
  · have hstep : setPasswordStep env s12
        = .err (.assertionFailed "未找到密码输入框" (enterState .setPassword s12).state)
            (enterState .setPassword s12) := by
      unfold setPasswordStep
      rw [if_neg hpp]
    rw [hstep]
    simp only [seqStep]
    refine ⟨_, _, rfl, s12.log, [RunEvent.enter .setPassword], ?_, ?_, ?_, ?_⟩
    · simp [enterState]
    · intro hm
      exact hsp (hlog2 ▸ hm)
    · intro st
      simp
    · intro _
      rw [hlog2]
      exact hcnt

end AutoReg
namespace AutoReg

theorem executeRun_shape (env : Env) (req : AutoRegisterRequest) :
    ∃ A B, (executeRun env req).2.log = A ++ B
      ∧ RunEvent.enter RegisterState.setPassword ∉ A
      ∧ (∀ st, RunEvent.tcheck st ∉ B)
      ∧ (RunEvent.enter RegisterState.setPassword ∈ B → 9 ≤ countTChecks A) := by
  obtain ⟨e, s, hcore, A, B, hlog, hA, hB, hC⟩ := executeCore_shape env
  unfold executeRun
  rw [hcore]
  have hgoal : ∀ (r : Option RunError × RunState), r.2 = enterState .failed s →
      ∃ A2 B2, r.2.log = A2 ++ B2
        ∧ RunEvent.enter RegisterState.setPassword ∉ A2
        ∧ (∀ st, RunEvent.tcheck st ∉ B2)
        ∧ (RunEvent.enter RegisterState.setPassword ∈ B2 → 9 ≤ countTChecks A2) := by
    intro r hr
    refine ⟨A, B ++ [RunEvent.enter .failed], ?_, hA, ?_, ?_⟩
    · rw [hr]
      simp only [enterState]
      rw [hlog, List.append_assoc]
    · intro st hm
      rcases List.mem_append.mp hm with h | h
      · exact hB st h
      · simp at h
    · intro hm
      rcases List.mem_append.mp hm with h | h
      · exact hC h
      · simp at h
  cases e with
  | pythonError msg => exact hgoal _ rfl
  | emailExists email => exact hgoal _ rfl
  | timeoutExceeded msg st => exact hgoal _ rfl
  | assertionFailed msg st => exact hgoal _ rfl
  | autoRegister msg code st => exact hgoal _ rfl

theorem append_align {α : Type} :
    ∀ (A l1 B l2 : List α) (x : α), x ∉ A →
    A ++ B = l1 ++ x :: l2 → ∃ B1, B = B1 ++ x :: l2 ∧ l1 = A ++ B1 := by
  intro A
  induction A with
  | nil =>
    intro l1 B l2 x _ h
    exact ⟨l1, by simpa using h, by simp⟩
  | cons a A ih =>
    intro l1 B l2 x hx h
    cases l1 with
    | nil =>
      simp only [List.cons_append, List.nil_append] at h
      have h1 : a = x := (List.cons.injEq _ _ _ _ ▸ h).1
      exact absurd (h1 ▸ List.mem_cons_self a A) hx
    | cons b l1 =>
      simp only [List.cons_append, List.cons.injEq] at h
      obtain ⟨hab, h2⟩ := h
      obtain ⟨B1, hB1, hl1⟩ := ih l1 B l2 x (fun hm => hx (List.mem_cons_of_mem _ hm)) h2
      refine ⟨B1, hB1, ?_⟩
      rw [hab, hl1]
      rfl

/-- C9: (1) in every run, no global-timeout check occurs at or after entry
of the SET_PASSWORD state — once the password-setting step starts (and in
particular once it succeeds) the run can no longer be aborted by the time
budget; (2) `_check_timeout` raises a `TimeoutExceededException` carrying
the current state exactly when the elapsed time exceeds the configured
ceiling, and returns normally otherwise; (3) in every run that reaches
SET_PASSWORD, at least nine timeout checks were performed before it — the
six checkpoints after steps 1-6 of `execute` plus the checks opening the
branch-detection, name-input and mail-polling loops. -/
theorem c9_no_timeout_check_after_set_password :
    (∀ (env : Env) (req : AutoRegisterRequest) (l1 l2 : List RunEvent),
       (executeRun env req).2.log = l1 ++ RunEvent.enter RegisterState.setPassword :: l2 →
       ∀ st, RunEvent.tcheck st ∉ l2)
    ∧ (∀ (env : Env) (s : RunState),
       (GLOBAL_TIMEOUT_SECONDS < env.clock s.ticks →
          checkTimeout env s
            = .err (.timeoutExceeded "全局超时 (180s)" s.state) (afterCheck s))
       ∧ (env.clock s.ticks ≤ GLOBAL_TIMEOUT_SECONDS →
          checkTimeout env s = .ok (afterCheck s)))
    ∧ (∀ (env : Env) (req : AutoRegisterRequest) (l1 l2 : List RunEvent),
       (executeRun env req).2.log = l1 ++ RunEvent.enter RegisterState.setPassword :: l2 →
       9 ≤ countTChecks l1) := by
  refine ⟨?_, ?_, ?_⟩
  · intro env req l1 l2 hsplit st hmem
    obtain ⟨A, B, hlog, hA, hB, _⟩ := executeRun_shape env req
    rw [hsplit] at hlog
    obtain ⟨B1, hB1, _⟩ := append_align A l1 B l2 _ hA hlog.symm
    exact hB st (hB1 ▸ List.mem_append_right B1 (List.mem_cons_of_mem _ hmem))
  · intro env s
    constructor
    · intro h
      unfold checkTimeout
      rw [if_pos h]
    · intro h
      unfold checkTimeout
      rw [if_neg (by omega)]
  · intro env req l1 l2 hsplit
    obtain ⟨A, B, hlog, hA, hB, hC⟩ := executeRun_shape env req
    rw [hsplit] at hlog
    obtain ⟨B1, hB1, hl1⟩ := append_align A l1 B l2 _ hA hlog.symm
    have h9 : 9 ≤ countTChecks A :=
      hC (hB1 ▸ List.mem_append_right B1 (List.mem_cons_self _ _))
    rw [hl1, countTChecks_append]
    omega

end AutoReg
namespace AutoReg

theorem c9_no_timeout_check_after_set_password_witness :
    (∀ st, RunEvent.tcheck st
       ∉ [RunEvent.enter RegisterState.verifyLogin, RunEvent.enter RegisterState.failed])
    ∧ checkTimeout healthyEnv initialRunState = .ok (afterCheck initialRunState)
    ∧ 9 ≤ countTChecks
        [RunEvent.enter RegisterState.duckmailCreated,
         RunEvent.tcheck RegisterState.duckmailCreated,
         RunEvent.enter RegisterState.siteOpened,
         RunEvent.enter RegisterState.loginEntry,
         RunEvent.tcheck RegisterState.loginEntry,
         RunEvent.enter RegisterState.emailEntered,
         RunEvent.tcheck RegisterState.emailEntered,
         RunEvent.tcheck RegisterState.emailEntered,
         RunEvent.enter RegisterState.branchDetected,
         RunEvent.tcheck RegisterState.branchDetected,
         RunEvent.enter RegisterState.registerForm,
         RunEvent.tcheck RegisterState.registerForm,
         RunEvent.tcheck RegisterState.registerForm,
         RunEvent.enter RegisterState.waitingEmail,
         RunEvent.tcheck RegisterState.waitingEmail,
         RunEvent.enter RegisterState.confirmationLink,
         RunEvent.tcheck RegisterState.confirmationLink] :=
  ⟨c9_no_timeout_check_after_set_password.1 healthyEnv witReq
     [RunEvent.enter RegisterState.duckmailCreated,
      RunEvent.tcheck RegisterState.duckmailCreated,
      RunEvent.enter RegisterState.siteOpened,
      RunEvent.enter RegisterState.loginEntry,
      RunEvent.tcheck RegisterState.loginEntry,
      RunEvent.enter RegisterState.emailEntered,
      RunEvent.tcheck RegisterState.emailEntered,
      RunEvent.tcheck RegisterState.emailEntered,
      RunEvent.enter RegisterState.branchDetected,
      RunEvent.tcheck RegisterState.branchDetected,
      RunEvent.enter RegisterState.registerForm,
      RunEvent.tcheck RegisterState.registerForm,
      RunEvent.tcheck RegisterState.registerForm,
      RunEvent.enter RegisterState.waitingEmail,
      RunEvent.tcheck RegisterState.waitingEmail,
      RunEvent.enter RegisterState.confirmationLink,
      RunEvent.tcheck RegisterState.confirmationLink]
     [RunEvent.enter RegisterState.verifyLogin, RunEvent.enter RegisterState.failed]
     (by decide),
   (c9_no_timeout_check_after_set_password.2.1 healthyEnv initialRunState).2
     (by show (0 : Nat) ≤ GLOBAL_TIMEOUT_SECONDS; decide),
   c9_no_timeout_check_after_set_password.2.2 healthyEnv witReq
     [RunEvent.enter RegisterState.duckmailCreated,
      RunEvent.tcheck RegisterState.duckmailCreated,
      RunEvent.enter RegisterState.siteOpened,
      RunEvent.enter RegisterState.loginEntry,
      RunEvent.tcheck RegisterState.loginEntry,
      RunEvent.enter RegisterState.emailEntered,
      RunEvent.tcheck RegisterState.emailEntered,
      RunEvent.tcheck RegisterState.emailEntered,
      RunEvent.enter RegisterState.branchDetected,
      RunEvent.tcheck RegisterState.branchDetected,
      RunEvent.enter RegisterState.registerForm,
      RunEvent.tcheck RegisterState.registerForm,
      RunEvent.tcheck RegisterState.registerForm,
      RunEvent.enter RegisterState.waitingEmail,
      RunEvent.tcheck RegisterState.waitingEmail,
      RunEvent.enter RegisterState.confirmationLink,
      RunEvent.tcheck RegisterState.confirmationLink]
     [RunEvent.enter RegisterState.verifyLogin, RunEvent.enter RegisterState.failed]
     (by decide)⟩

end AutoReg
